import Mathlib

/-!
# brifit_demo: decoding of WS02 "ThermoBeacon" advertisements

A shallow embedding of `src/main.go` and the properties of its decoder.

Conventions of the embedding

* A Go `byte` is a `Fin 256`; a `[]byte` is a `List Byte` whose capacity equals its length.
* `uint16`, `uint32` values are natural numbers; the only arithmetic the program does on them
  (`|`, `<<` on zero-extended bytes, `/`, `%`) cannot wrap, and the bounds are proved below.
* A `float64` is a value of `F64`: a finite rational, a negative zero, an infinity or a NaN.
  Every float64 operation of the program (`+` of the calibration offset, `* 10`, `math.Round`,
  `/ 10`) is the exact operation followed by IEEE 754 round-to-nearest-even to binary64.
  `float64(u)/16.0`, the comparison with `4000` and the subtraction of `4096` are exact for
  every 16-bit `u` (`signCorrect_exact`), so `signCorrect` computes them on rationals.
* The package-level variables written by `readConfig` are the record `Globals`, which
  `parseWS02Data` only reads.
* A Go panic (slice or index out of range) is the result `none`.
-/

namespace Brifit

/-! ## Data model -/

/-- A Go `byte`. -/
abbrev Byte := Fin 256

/-- A Go `float64`: a finite value, a negative zero, an infinity or a NaN. `fin 0` is the
positive zero; the operations below produce `fin q` only for values `q` that binary64 holds. -/
inductive F64 where
  | nan
  | posInf
  | negInf
  | negZero
  | fin (q : ℚ)
  deriving DecidableEq

/-- The struct `SensorData` of `main.go`. -/
structure SensorData where
  MacAddress : String
  Name : String
  BatLevel : Nat
  RSSI : Int
  Uptime : Nat
  Temperature : F64
  Humidity : F64
  deriving DecidableEq

/-- The package-level variables of `main.go` (the calibration store). -/
structure Globals where
  insideSensor : String
  insideTempCal : F64
  insideHumCal : F64
  outsideSensor : String
  outsideTempCal : F64
  outsideHumCal : F64
  deriving DecidableEq

/-- The local variables of `parseWS02Data` just before its `return` statement. -/
structure Locals where
  macAdr : String
  name : String
  tempCal : F64
  humCal : F64
  batLevel : Nat
  uptime : Nat
  temperatureInt : Nat
  temperature : F64
  humidityInt : Nat
  humidity : F64
  deriving DecidableEq

/-! ## Library functions used by the program -/

/-- The digit table `udigits` of Go's `fmt` package, used by the verb `%X`. -/
def udigits : List Char := "0123456789ABCDEFX".toList

/-- One upper-case hexadecimal digit: `udigits[n]`. -/
def hexDigit (n : Nat) : Char := udigits.getD n '?'

/-- The call `fmt.Sprintf("%02X:", c)` for a byte `c`: the value in base 16 with the digits of
`udigits`, padded with zeros to width two, followed by the literal colon. -/
def sprintf02XColon (c : Byte) : String :=
  ⟨[hexDigit (c.val / 16), hexDigit (c.val % 16), ':']⟩

/-- Go's `strings.HasSuffix`: `len(s) >= len(suffix) && s[len(s)-len(suffix):] == suffix`. -/
def hasSuffix (s suffix : String) : Bool :=
  decide (suffix.data.length ≤ s.data.length) &&
    decide (s.data.drop (s.data.length - suffix.data.length) = suffix.data)

/-- Go's `strings.TrimSuffix`: `s[:len(s)-len(suffix)]` when `s` ends in `suffix`, else `s`. -/
def trimSuffix (s suffix : String) : String :=
  if hasSuffix s suffix then ⟨s.data.take (s.data.length - suffix.data.length)⟩ else s

/-- The slice expression `s[lo:hi]`; it panics unless `lo ≤ hi ≤ cap(s)`. -/
def slice (s : List Byte) (lo hi : Nat) : Option (List Byte) :=
  if lo ≤ hi ∧ hi ≤ s.length then some ((s.drop lo).take (hi - lo)) else none

/-- Go's `binary.LittleEndian.Uint16`: `uint16(b[0]) | uint16(b[1])<<8`, after the bounds
check `_ = b[1]`. -/
def leUint16 (b : List Byte) : Option Nat :=
  match b with
  | b0 :: b1 :: _ => some (b0.val ||| (b1.val <<< 8))
  | _ => none

/-- Go's `binary.LittleEndian.Uint32`:
`uint32(b[0]) | uint32(b[1])<<8 | uint32(b[2])<<16 | uint32(b[3])<<24`, after `_ = b[3]`. -/
def leUint32 (b : List Byte) : Option Nat :=
  match b with
  | b0 :: b1 :: b2 :: b3 :: _ =>
    some (b0.val ||| (b1.val <<< 8) ||| (b2.val <<< 16) ||| (b3.val <<< 24))
  | _ => none

/-- Go's `math.Trunc`: the integer part, rounding toward zero. -/
def trunc (x : ℚ) : ℚ := if 0 ≤ x then (⌊x⌋ : ℚ) else (⌈x⌉ : ℚ)

/-- Go's `math.Copysign(1, x)` on the rationals. -/
def copysignOne (x : ℚ) : ℚ := if 0 ≤ x then 1 else -1

/-- Go's `math.Round` on a finite value, in the form its source documents it:
`t := Trunc(x); if Abs(x-t) >= 0.5 { return t + Copysign(1, x) }; return t`. Each of these
steps is exact in binary64. -/
def mathRound (x : ℚ) : ℚ :=
  let t := trunc x
  if |x - t| ≥ 1 / 2 then t + copysignOne x else t

/-- Rounding of a rational to the nearest integer, ties to the even one. -/
def roundHalfEven (y : ℚ) : ℤ :=
  let f := ⌊y⌋
  if y - f < 1 / 2 then f
  else if 1 / 2 < y - f then f + 1
  else if f % 2 = 0 then f else f + 1

/-- The exponent of the unit in the last place of binary64 at a non-zero `x`: 52 below the
binary exponent of `x`, and never below that of the subnormal numbers. -/
def quantumExp (x : ℚ) : ℤ := max (Int.log 2 |x| - 52) (-1074)

/-- The binary64 value of an exact result `x` under round-to-nearest-even: a result of
magnitude `2^1024` or more is an infinity, and a result that rounds to zero keeps the sign of
`x`. -/
def F64.ofRat (x : ℚ) : F64 :=
  if x = 0 then F64.fin 0
  else
    let n := roundHalfEven (x / (2 : ℚ) ^ quantumExp x)
    let y : ℚ := (n : ℚ) * (2 : ℚ) ^ quantumExp x
    if (2 : ℚ) ^ (1024 : ℤ) ≤ |y| then (if x < 0 then F64.negInf else F64.posInf)
    else if n = 0 then (if x < 0 then F64.negZero else F64.fin 0)
    else F64.fin y

/-- The float64 sum `a + b`. -/
def F64.add : F64 → F64 → F64
  | F64.nan, _ => F64.nan
  | _, F64.nan => F64.nan
  | F64.posInf, F64.negInf => F64.nan
  | F64.negInf, F64.posInf => F64.nan
  | F64.posInf, _ => F64.posInf
  | _, F64.posInf => F64.posInf
  | F64.negInf, _ => F64.negInf
  | _, F64.negInf => F64.negInf
  | F64.negZero, F64.negZero => F64.negZero
  | F64.negZero, F64.fin b => F64.fin b
  | F64.fin a, F64.negZero => F64.fin a
  | F64.fin a, F64.fin b => if a + b = 0 then F64.fin 0 else F64.ofRat (a + b)

/-- The float64 product `x * 10`. -/
def F64.mulTen : F64 → F64
  | F64.fin a => if a = 0 then F64.fin 0 else F64.ofRat (a * 10)
  | x => x

/-- The float64 quotient `x / 10`. -/
def F64.divTen : F64 → F64
  | F64.fin a => if a = 0 then F64.fin 0 else F64.ofRat (a / 10)
  | x => x

/-- Go's `math.Round` on a float64: NaN, the infinities and the zeros are returned as they
are, and a value that rounds to zero gives the zero of its sign. -/
def F64.mathRound : F64 → F64
  | F64.fin a =>
    if Brifit.mathRound a = 0 then (if a < 0 then F64.negZero else F64.fin 0)
    else F64.fin (Brifit.mathRound a)
  | x => x

/-- The verb `%d` of Go's `fmt` package on an unsigned integer. -/
def fmtDecimal (n : Nat) : String := Nat.repr n

/-! ## The program -/

def macOffset : Nat := 2
def batOffset : Nat := 8
def tempOffset : Nat := 10
def humidityOffset : Nat := 12
def uptimeOffset : Nat := 14

/-- Lines 124-127 and 131-134 of `main.go`, which are the same statements for temperature and
humidity: `raw := float64(v) / 16.0; if raw > 4000 { raw -= 4096 }`. For a 16-bit `v` both
results are binary64 values, so no rounding takes place. -/
def signCorrect (valueInt : Nat) : ℚ :=
  let raw : ℚ := (valueInt : ℚ) / 16
  if raw > 4000 then raw - 4096 else raw

/-- The body of `parseWS02Data` up to its `return` statement (lines 103-135). -/
def parseLocals (g : Globals) (payload : List Byte) : Option Locals := do
  let macBytes ← slice payload macOffset (macOffset + 6)
  let macAdr := macBytes.reverse.foldl (fun acc c => acc ++ sprintf02XColon c) ""
  let macAdr := trimSuffix macAdr ":"
  let (name, tempCal, humCal) :=
    if macAdr = g.insideSensor then ("Inside", g.insideTempCal, g.insideHumCal)
    else if macAdr = g.outsideSensor then ("Outside", g.outsideTempCal, g.outsideHumCal)
    else ("", F64.fin 0, F64.fin 0)
  let batLevel ← (slice payload batOffset (batOffset + 2)).bind leUint16
  let uptime ← (slice payload uptimeOffset (uptimeOffset + 4)).bind leUint32
  let temperatureInt ← (slice payload tempOffset (tempOffset + 2)).bind leUint16
  let temperature := F64.add (F64.fin (signCorrect temperatureInt)) tempCal
  let humidityInt ← (slice payload humidityOffset (humidityOffset + 2)).bind leUint16
  let humidity := F64.add (F64.fin (signCorrect humidityInt)) humCal
  pure { macAdr := macAdr, name := name, tempCal := tempCal, humCal := humCal,
         batLevel := batLevel, uptime := uptime, temperatureInt := temperatureInt,
         temperature := temperature, humidityInt := humidityInt, humidity := humidity }

/-- The function `parseWS02Data` of `main.go`: the locals, then the returned struct with
`math.Round(temperature*10) / 10` and `math.Round(humidity*10) / 10`. -/
def parseWS02Data (g : Globals) (payload : List Byte) (rssi : Int) : Option SensorData :=
  (parseLocals g payload).map fun l =>
    { MacAddress := l.macAdr, Name := l.name, BatLevel := l.batLevel, RSSI := rssi,
      Uptime := l.uptime,
      Temperature := F64.divTen (F64.mathRound (F64.mulTen l.temperature)),
      Humidity := F64.divTen (F64.mathRound (F64.mulTen l.humidity)) }

/-- The function `formatUptime` of `main.go`; `seconds` is a `uint32`. -/
def formatUptime (seconds : Nat) : String :=
  let days := seconds / (24 * 3600)
  let hours := (seconds % (24 * 3600)) / 3600
  let minutes := (seconds % 3600) / 60
  fmtDecimal days ++ "d " ++ fmtDecimal hours ++ "h " ++ fmtDecimal minutes ++ "m"

/-! ## Specification-side vocabulary -/

/-- The value of an upper-case hexadecimal digit; `none` for every other character. -/
def upperHexValue (c : Char) : Option Nat :=
  let i := "0123456789ABCDEF".toList.indexOf c
  if i < 16 then some i else none

/-- Six address bytes, given in wire order, displayed last byte first as `XX:XX:XX:XX:XX:XX`. -/
def macString (b2 b3 b4 b5 b6 b7 : Byte) : String :=
  ⟨[hexDigit (b7.val / 16), hexDigit (b7.val % 16), ':',
    hexDigit (b6.val / 16), hexDigit (b6.val % 16), ':',
    hexDigit (b5.val / 16), hexDigit (b5.val % 16), ':',
    hexDigit (b4.val / 16), hexDigit (b4.val % 16), ':',
    hexDigit (b3.val / 16), hexDigit (b3.val % 16), ':',
    hexDigit (b2.val / 16), hexDigit (b2.val % 16)]⟩

/-- Rounding to one decimal place as the `return` statement does it:
`math.Round(x*10) / 10` in float64. -/
def roundTenth (x : F64) : F64 := F64.divTen (F64.mathRound (F64.mulTen x))

/-- A calibration store for the examples: Inside is `AA:BB:CC:DD:EE:FF`, Outside is
`11:22:33:44:55:66`, with non-zero offsets on both roles. -/
def exampleGlobals : Globals :=
  { insideSensor := "AA:BB:CC:DD:EE:FF", insideTempCal := F64.fin (1 / 2),
    insideHumCal := F64.fin (-2),
    outsideSensor := "11:22:33:44:55:66", outsideTempCal := F64.fin (-3 / 4),
    outsideHumCal := F64.fin 5 }

/-- A payload from the Inside sensor of `exampleGlobals`: battery 100, temperature field 368
(23.0), humidity field 64016, uptime 90061 s. -/
def insidePayload : List Byte :=
  [0, 0, 0xFF, 0xEE, 0xDD, 0xCC, 0xBB, 0xAA, 0x64, 0x00, 0x70, 0x01, 0x10, 0xFA,
   0xCD, 0x5F, 0x01, 0x00]

/-- A payload from a sensor that `exampleGlobals` does not know (wire address bytes
`AA BB CC DD EE FF`): temperature field 64000, humidity field 64016, uptime 60 s. -/
def wirePayload : List Byte :=
  [0, 0, 0xAA, 0xBB, 0xCC, 0xDD, 0xEE, 0xFF, 0x5A, 0x0B, 0x00, 0xFA, 0x10, 0xFA,
   0x3C, 0x00, 0x00, 0x00]

/-- The calibration store of the end-to-end example: Inside is `AA:BB:CC:DD:EE:FF` and every
offset is zero. -/
def endToEndGlobals : Globals :=
  { insideSensor := "AA:BB:CC:DD:EE:FF", insideTempCal := F64.fin 0,
    insideHumCal := F64.fin 0, outsideSensor := "11:22:33:44:55:66",
    outsideTempCal := F64.fin 0, outsideHumCal := F64.fin 0 }

/-- The payload of the end-to-end example, with zeros for the two unspecified bytes. -/
def endToEndPayload : List Byte :=
  [0, 0, 0xFF, 0xEE, 0xDD, 0xCC, 0xBB, 0xAA, 0x64, 0x00, 0x00, 0x01, 0x00, 0x01,
   0x00, 0x00, 0x00, 0x3C]

/-- Rounding to the nearest integer with ties away from zero, as the specification words it. -/
def roundHalfAwayFromZero (x : ℚ) : ℤ := if 0 ≤ x then ⌊x + 1 / 2⌋ else ⌈x - 1 / 2⌉

/-- A calibration store with the float64 offsets 0.15 and 0.3 on the Inside role. -/
def roundingGlobals : Globals :=
  { insideSensor := "AA:BB:CC:DD:EE:FF",
    insideTempCal := F64.fin (5404319552844595 / 36028797018963968),
    insideHumCal := F64.fin (5404319552844595 / 18014398509481984),
    outsideSensor := "11:22:33:44:55:66", outsideTempCal := F64.fin 0,
    outsideHumCal := F64.fin 0 }

/-- A payload from the Inside sensor with temperature field 0 (0.0) and humidity field 324
(20.25). -/
def roundingPayload : List Byte :=
  [0, 0, 0xFF, 0xEE, 0xDD, 0xCC, 0xBB, 0xAA, 0x64, 0x00, 0x00, 0x00, 0x44, 0x01,
   0x3C, 0x00, 0x00, 0x00]

/-- The number a string of decimal digits denotes, most significant digit first. -/
def decimalValue (s : String) : Nat :=
  s.data.foldl (fun acc c => 10 * acc + (c.toNat - 48)) 0

/-- A payload from the Outside sensor of `exampleGlobals`: temperature field 64016 (-95.0),
humidity field 800 (50.0). -/
def outsidePayload : List Byte :=
  [0, 0, 0x66, 0x55, 0x44, 0x33, 0x22, 0x11, 0x5A, 0x0B, 0x10, 0xFA, 0x20, 0x03,
   0x3C, 0x00, 0x00, 0x00]

/-- A payload whose address bytes are all zero: temperature field 368 (23.0), humidity field
800 (50.0). -/
def zeroAddressPayload : List Byte :=
  [0, 0, 0, 0, 0, 0, 0, 0, 0x64, 0x00, 0x70, 0x01, 0x20, 0x03, 0x3C, 0x00, 0x00, 0x00]

/-- A misconfigured calibration store: both roles carry the same address. -/
def duplicateGlobals : Globals :=
  { insideSensor := "AA:BB:CC:DD:EE:FF", insideTempCal := F64.fin (1 / 2),
    insideHumCal := F64.fin (-2),
    outsideSensor := "AA:BB:CC:DD:EE:FF", outsideTempCal := F64.fin 7,
    outsideHumCal := F64.fin 9 }

/-- A call of `parseWS02Data` as a step on the package-level variables: the body of the
function contains no assignment to any of them, so the store after the call is the store
before it. -/
def parseWS02DataCall (g : Globals) (payload : List Byte) (rssi : Int) :
    Option SensorData × Globals :=
  (parseWS02Data g payload rssi, g)

/-- The payload `insidePayload` with other values in its first two bytes. -/
def insidePayloadVariant : List Byte :=
  [0x10, 0x00, 0xFF, 0xEE, 0xDD, 0xCC, 0xBB, 0xAA, 0x64, 0x00, 0x70, 0x01, 0x10, 0xFA,
   0xCD, 0x5F, 0x01, 0x00]

/-- One element of `bluetooth.ManufacturerData()`: a company identifier and its data. -/
structure ManufacturerDataElement where
  CompanyID : Nat
  Data : List Byte
  deriving DecidableEq

/-- What the program reads of a `bluetooth.ScanResult`: the local name, the manufacturer-data
list of the advertisement payload and the RSSI. -/
structure ScanResult where
  LocalName : String
  ManufacturerData : List ManufacturerDataElement
  RSSI : Int
  deriving DecidableEq

/-- The arguments of the one `log.Printf` call of `processAdvertisement`, in order. -/
structure LogEntry where
  Name : String
  Temperature : F64
  Humidity : F64
  BatLevel : Nat
  RSSI : Int
  Uptime : String
  deriving DecidableEq

/-- The arguments that `processAdvertisement` passes to `log.Printf` for a decoded reading:
`sensorData.Name, sensorData.Temperature, sensorData.Humidity, sensorData.BatLevel,
sensorData.RSSI, formatUptime(sensorData.Uptime)`. -/
def logEntry (sensorData : SensorData) : LogEntry :=
  { Name := sensorData.Name, Temperature := sensorData.Temperature,
    Humidity := sensorData.Humidity, BatLevel := sensorData.BatLevel,
    RSSI := sensorData.RSSI, Uptime := formatUptime sensorData.Uptime }

/-- The function `processAdvertisement` of `main.go` with the decoder it calls as a parameter.
The result is the list of log entries written, or `none` when the function panics;
`ManufacturerData()[0]` panics on an empty list. -/
def processAdvertisementWith (parse : List Byte → Int → Option SensorData)
    (scanResult : ScanResult) : Option (List LogEntry) :=
  match scanResult.ManufacturerData with
  | [] => none
  | first :: _ =>
    let payload := first.Data
    if payload.length = 18 then
      match parse payload scanResult.RSSI with
      | none => none
      | some sensorData =>
        if sensorData.Name ≠ "" then
          some [logEntry sensorData]
        else some []
    else some []

/-- The function `onScan` of `main.go` with the decoder as a parameter. -/
def onScanWith (parse : List Byte → Int → Option SensorData) (scanResult : ScanResult) :
    Option (List LogEntry) :=
  if scanResult.LocalName = "ThermoBeacon" then processAdvertisementWith parse scanResult
  else some []

/-- The function `processAdvertisement` of `main.go`. -/
def processAdvertisement (g : Globals) (scanResult : ScanResult) : Option (List LogEntry) :=
  processAdvertisementWith (parseWS02Data g) scanResult

/-- The function `onScan` of `main.go`. -/
def onScan (g : Globals) (scanResult : ScanResult) : Option (List LogEntry) :=
  onScanWith (parseWS02Data g) scanResult

/-- A scan event named `ThermoBeacon` that carries no manufacturer data. -/
def emptyManufacturerDataEvent : ScanResult :=
  { LocalName := "ThermoBeacon", ManufacturerData := [], RSSI := -71 }

/-- A scan event from the Inside sensor of `exampleGlobals`. -/
def insideEvent : ScanResult :=
  { LocalName := "ThermoBeacon",
    ManufacturerData := [{ CompanyID := 0x10, Data := insidePayload }], RSSI := -71 }

/-- The correction done on the raw integer instead of the scaled value, as the design note
words it: `(r - 65536)/16` for `r > 64000` and `r/16` otherwise. -/
def integerDomainCorrect (r : Nat) : ℚ :=
  if r > 64000 then (((r : ℤ) - 65536 : ℤ) : ℚ) / 16 else (r : ℚ) / 16

/-- A payload from a sensor that `exampleGlobals` does not know, with temperature field 4016
(above 4000 raw units) and humidity field 4000. -/
def rawUnitsPayload : List Byte :=
  [0, 0, 0xAA, 0xBB, 0xCC, 0xDD, 0xEE, 0xFF, 0x64, 0x00, 0xB0, 0x0F, 0xA0, 0x0F,
   0x3C, 0x00, 0x00, 0x00]

/-- The three local variables `days`, `hours`, `minutes` of `formatUptime`. -/
def formatUptimeParts (seconds : Nat) : Nat × Nat × Nat :=
  (seconds / (24 * 3600), (seconds % (24 * 3600)) / 3600, (seconds % 3600) / 60)

/-- The characters that occur in a canonical address. -/
def macAlphabet : List Char := "0123456789ABCDEF:".toList

/-- A calibration store whose Inside address is written in lower case. -/
def lowercaseGlobals : Globals :=
  { insideSensor := "aa:bb:cc:dd:ee:ff", insideTempCal := F64.fin (1 / 2),
    insideHumCal := F64.fin (-2),
    outsideSensor := "11:22:33:44:55:66", outsideTempCal := F64.fin (-3 / 4),
    outsideHumCal := F64.fin 5 }

/-- What viper returns for the six keys that `readConfig` reads, once `ReadInConfig` has
succeeded: `inside.mac`, `inside.temperature-calibration`, `inside.humidity-calibration`,
`outside.mac`, `outside.temperature-calibration`, `outside.humidity-calibration`. -/
structure ViperValues where
  insideMac : String
  insideTemperatureCalibration : F64
  insideHumidityCalibration : F64
  outsideMac : String
  outsideTemperatureCalibration : F64
  outsideHumidityCalibration : F64
  deriving DecidableEq

/-- The outcome of `readConfig`: the process ends in `log.Fatal`, or the function returns with
the package-level variables set. -/
inductive LoadResult where
  | fatal (message : String)
  | loaded (g : Globals)
  deriving DecidableEq

/-- Go's `len` on a string: the number of bytes of its UTF-8 encoding. -/
def goLen (s : String) : Nat := s.utf8ByteSize

/-- The function `readConfig` of `main.go`. The argument is what `viper.ReadInConfig` found:
`none` when it returns an error. The six package-level variables are all overwritten, so the
outcome does not depend on their previous values. -/
def readConfig (file : Option ViperValues) : LoadResult :=
  match file with
  | none => LoadResult.fatal "Fatal error reading config file"
  | some v =>
    let g : Globals :=
      { insideSensor := v.insideMac
        insideTempCal := v.insideTemperatureCalibration
        insideHumCal := v.insideHumidityCalibration
        outsideSensor := v.outsideMac
        outsideTempCal := v.outsideTemperatureCalibration
        outsideHumCal := v.outsideHumidityCalibration }
    if goLen g.insideSensor ≠ 17 ∨ goLen g.outsideSensor ≠ 17 then
      LoadResult.fatal "Invalid MAC address! Must be 17 characters long."
    else LoadResult.loaded g

/-- The calibration store that `readConfig` sets from the values read. -/
def globalsOf (v : ViperValues) : Globals :=
  { insideSensor := v.insideMac
    insideTempCal := v.insideTemperatureCalibration
    insideHumCal := v.insideHumidityCalibration
    outsideSensor := v.outsideMac
    outsideTempCal := v.outsideTemperatureCalibration
    outsideHumCal := v.outsideHumidityCalibration }

/-- A configuration whose Inside address has 17 characters, the last one outside ASCII, and
therefore 18 bytes. -/
def seventeenCharsConfig : ViperValues :=
  { insideMac := "AA:BB:CC:DD:EE:Fé", insideTemperatureCalibration := F64.fin 0,
    insideHumidityCalibration := F64.fin 0, outsideMac := "11:22:33:44:55:66",
    outsideTemperatureCalibration := F64.fin 0, outsideHumidityCalibration := F64.fin 0 }

/-- A configuration whose Inside address has 16 characters and 17 bytes. -/
def seventeenBytesConfig : ViperValues :=
  { insideMac := "AA:BB:CC:DD:EE:é", insideTemperatureCalibration := F64.fin 0,
    insideHumidityCalibration := F64.fin 0, outsideMac := "11:22:33:44:55:66",
    outsideTemperatureCalibration := F64.fin 0, outsideHumidityCalibration := F64.fin 0 }

/-- A configuration with two 17-byte addresses that are not hardware addresses. -/
def malformedAddressConfig : ViperValues :=
  { insideMac := "this is no addres", insideTemperatureCalibration := F64.fin (1 / 2),
    insideHumidityCalibration := F64.fin (-2), outsideMac := "ZZ-ZZ-ZZ-ZZ-ZZ-ZZ",
    outsideTemperatureCalibration := F64.fin 3, outsideHumidityCalibration := F64.fin 4 }

/-- The store `roundingGlobals` misconfigured: both roles carry the same address. -/
def duplicateRoundingGlobals : Globals :=
  { insideSensor := "AA:BB:CC:DD:EE:FF",
    insideTempCal := F64.fin (5404319552844595 / 36028797018963968),
    insideHumCal := F64.fin (5404319552844595 / 18014398509481984),
    outsideSensor := "AA:BB:CC:DD:EE:FF", outsideTempCal := F64.fin 7,
    outsideHumCal := F64.fin 9 }

/-! ## Basic facts -/

/-- A list of length 18 is a list of eighteen elements. -/
theorem payload18 {α : Type} (p : List α) (h : p.length = 18) :
    ∃ b0 b1 b2 b3 b4 b5 b6 b7 b8 b9 b10 b11 b12 b13 b14 b15 b16 b17,
      p = [b0, b1, b2, b3, b4, b5, b6, b7, b8, b9, b10, b11, b12, b13, b14, b15, b16, b17] := by
  match p, h with
  | [b0, b1, b2, b3, b4, b5, b6, b7, b8, b9, b10, b11, b12, b13, b14, b15, b16, b17], _ =>
    exact ⟨b0, b1, b2, b3, b4, b5, b6, b7, b8, b9, b10, b11, b12, b13, b14, b15, b16, b17, rfl⟩

/-- Or-ing a shifted value onto a value below the shift is addition. -/
theorem lor_shiftLeft_eq_add (a b k : Nat) (h : a < 2 ^ k) : a ||| (b <<< k) = a + 2 ^ k * b := by
  rw [Nat.shiftLeft_eq, Nat.lor_comm, Nat.mul_comm, ← Nat.mul_add_lt_is_or h b]
  omega

theorem leUint16_value (b0 b1 : Byte) :
    b0.val ||| (b1.val <<< 8) = b0.val + 256 * b1.val := by
  have h := lor_shiftLeft_eq_add b0.val b1.val 8 (by simp)
  simpa using h

theorem leUint32_value (b0 b1 b2 b3 : Byte) :
    b0.val ||| (b1.val <<< 8) ||| (b2.val <<< 16) ||| (b3.val <<< 24)
      = b0.val + 2 ^ 8 * b1.val + 2 ^ 16 * b2.val + 2 ^ 24 * b3.val := by
  have h0 := b0.isLt
  have h1 := b1.isLt
  have h2 := b2.isLt
  rw [leUint16_value,
    lor_shiftLeft_eq_add (b0.val + 256 * b1.val) b2.val 16 (by norm_num; omega),
    lor_shiftLeft_eq_add (b0.val + 256 * b1.val + 2 ^ 16 * b2.val) b3.val 24 (by norm_num; omega)]
  norm_num

/-- The decoded locals of an 18-byte payload, field by field. -/
theorem parseLocals_eval (g : Globals)
    (b0 b1 b2 b3 b4 b5 b6 b7 b8 b9 b10 b11 b12 b13 b14 b15 b16 b17 : Byte) :
    parseLocals g [b0, b1, b2, b3, b4, b5, b6, b7, b8, b9, b10, b11, b12, b13, b14, b15, b16, b17]
      = some
        { macAdr := macString b2 b3 b4 b5 b6 b7
          name :=
            if macString b2 b3 b4 b5 b6 b7 = g.insideSensor then "Inside"
            else if macString b2 b3 b4 b5 b6 b7 = g.outsideSensor then "Outside" else ""
          tempCal :=
            if macString b2 b3 b4 b5 b6 b7 = g.insideSensor then g.insideTempCal
            else if macString b2 b3 b4 b5 b6 b7 = g.outsideSensor then g.outsideTempCal
            else F64.fin 0
          humCal :=
            if macString b2 b3 b4 b5 b6 b7 = g.insideSensor then g.insideHumCal
            else if macString b2 b3 b4 b5 b6 b7 = g.outsideSensor then g.outsideHumCal
            else F64.fin 0
          batLevel := b8.val + 256 * b9.val
          uptime := b14.val + 2 ^ 8 * b15.val + 2 ^ 16 * b16.val + 2 ^ 24 * b17.val
          temperatureInt := b10.val + 256 * b11.val
          temperature := F64.add (F64.fin (signCorrect (b10.val + 256 * b11.val)))
            (if macString b2 b3 b4 b5 b6 b7 = g.insideSensor then g.insideTempCal
             else if macString b2 b3 b4 b5 b6 b7 = g.outsideSensor then g.outsideTempCal
             else F64.fin 0)
          humidityInt := b12.val + 256 * b13.val
          humidity := F64.add (F64.fin (signCorrect (b12.val + 256 * b13.val)))
            (if macString b2 b3 b4 b5 b6 b7 = g.insideSensor then g.insideHumCal
             else if macString b2 b3 b4 b5 b6 b7 = g.outsideSensor then g.outsideHumCal
             else F64.fin 0) } := by
  have e : parseLocals g
      [b0, b1, b2, b3, b4, b5, b6, b7, b8, b9, b10, b11, b12, b13, b14, b15, b16, b17]
      = some
        { macAdr := macString b2 b3 b4 b5 b6 b7
          name := (if macString b2 b3 b4 b5 b6 b7 = g.insideSensor
            then ("Inside", g.insideTempCal, g.insideHumCal)
            else if macString b2 b3 b4 b5 b6 b7 = g.outsideSensor
            then ("Outside", g.outsideTempCal, g.outsideHumCal) else ("", F64.fin 0, F64.fin 0)).1
          tempCal := (if macString b2 b3 b4 b5 b6 b7 = g.insideSensor
            then ("Inside", g.insideTempCal, g.insideHumCal)
            else if macString b2 b3 b4 b5 b6 b7 = g.outsideSensor
            then ("Outside", g.outsideTempCal, g.outsideHumCal) else ("", F64.fin 0, F64.fin 0)).2.1
          humCal := (if macString b2 b3 b4 b5 b6 b7 = g.insideSensor
            then ("Inside", g.insideTempCal, g.insideHumCal)
            else if macString b2 b3 b4 b5 b6 b7 = g.outsideSensor
            then ("Outside", g.outsideTempCal, g.outsideHumCal) else ("", F64.fin 0, F64.fin 0)).2.2
          batLevel := b8.val ||| (b9.val <<< 8)
          uptime := b14.val ||| (b15.val <<< 8) ||| (b16.val <<< 16) ||| (b17.val <<< 24)
          temperatureInt := b10.val ||| (b11.val <<< 8)
          temperature := F64.add (F64.fin (signCorrect (b10.val ||| (b11.val <<< 8))))
            (if macString b2 b3 b4 b5 b6 b7 = g.insideSensor
            then ("Inside", g.insideTempCal, g.insideHumCal)
            else if macString b2 b3 b4 b5 b6 b7 = g.outsideSensor
            then ("Outside", g.outsideTempCal, g.outsideHumCal) else ("", F64.fin 0, F64.fin 0)).2.1
          humidityInt := b12.val ||| (b13.val <<< 8)
          humidity := F64.add (F64.fin (signCorrect (b12.val ||| (b13.val <<< 8))))
            (if macString b2 b3 b4 b5 b6 b7 = g.insideSensor
            then ("Inside", g.insideTempCal, g.insideHumCal)
            else if macString b2 b3 b4 b5 b6 b7 = g.outsideSensor
            then ("Outside", g.outsideTempCal, g.outsideHumCal) else ("", F64.fin 0, F64.fin 0)).2.2 } := rfl
  rw [e, leUint32_value]
  simp only [leUint16_value]
  split_ifs <;> rfl

/-- The struct returned for an 18-byte payload. -/
theorem parseWS02Data_eval (g : Globals) (rssi : Int)
    (b0 b1 b2 b3 b4 b5 b6 b7 b8 b9 b10 b11 b12 b13 b14 b15 b16 b17 : Byte) :
    parseWS02Data g
        [b0, b1, b2, b3, b4, b5, b6, b7, b8, b9, b10, b11, b12, b13, b14, b15, b16, b17] rssi
      = some
        { MacAddress := macString b2 b3 b4 b5 b6 b7
          Name :=
            if macString b2 b3 b4 b5 b6 b7 = g.insideSensor then "Inside"
            else if macString b2 b3 b4 b5 b6 b7 = g.outsideSensor then "Outside" else ""
          BatLevel := b8.val + 256 * b9.val
          RSSI := rssi
          Uptime := b14.val + 2 ^ 8 * b15.val + 2 ^ 16 * b16.val + 2 ^ 24 * b17.val
          Temperature := roundTenth (F64.add (F64.fin (signCorrect (b10.val + 256 * b11.val)))
            (if macString b2 b3 b4 b5 b6 b7 = g.insideSensor then g.insideTempCal
             else if macString b2 b3 b4 b5 b6 b7 = g.outsideSensor then g.outsideTempCal
             else F64.fin 0))
          Humidity := roundTenth (F64.add (F64.fin (signCorrect (b12.val + 256 * b13.val)))
            (if macString b2 b3 b4 b5 b6 b7 = g.insideSensor then g.insideHumCal
             else if macString b2 b3 b4 b5 b6 b7 = g.outsideSensor then g.outsideHumCal
             else F64.fin 0)) } := by
  simp only [parseWS02Data, parseLocals_eval, Option.map_some', roundTenth]

theorem upperHexValue_hexDigit (n : Nat) (h : n < 16) : upperHexValue (hexDigit n) = some n := by
  interval_cases n <;> rfl

/-! ## Rounding -/

theorem trunc_of_nonneg {x : ℚ} (h : 0 ≤ x) : trunc x = (⌊x⌋ : ℚ) := by
  simp [trunc, h]

theorem trunc_of_neg {x : ℚ} (h : x < 0) : trunc x = (⌈x⌉ : ℚ) := by
  simp [trunc, not_le.mpr h]

/-- On a non-negative argument `math.Round` is `⌊x + 1/2⌋`. -/
theorem mathRound_of_nonneg {x : ℚ} (h : 0 ≤ x) : mathRound x = (⌊x + 1 / 2⌋ : ℚ) := by
  have h1 := Int.floor_le x
  have h2 := Int.lt_floor_add_one x
  have habs : |x - (⌊x⌋ : ℚ)| = x - ⌊x⌋ := abs_of_nonneg (by linarith)
  unfold mathRound
  simp only [trunc_of_nonneg h, copysignOne, h, if_true, habs, ge_iff_le]
  split_ifs with hc
  · have : ⌊x + 1 / 2⌋ = ⌊x⌋ + 1 := by
      rw [Int.floor_eq_iff]; push_cast; constructor <;> linarith
    rw [this]; push_cast; ring
  · have : ⌊x + 1 / 2⌋ = ⌊x⌋ := by
      rw [Int.floor_eq_iff]; constructor <;> linarith
    rw [this]

/-- On a negative argument `math.Round` is `⌈x - 1/2⌉`. -/
theorem mathRound_of_neg {x : ℚ} (h : x < 0) : mathRound x = (⌈x - 1 / 2⌉ : ℚ) := by
  have h1 := Int.le_ceil x
  have h2 := Int.ceil_lt_add_one x
  have habs : |x - (⌈x⌉ : ℚ)| = ⌈x⌉ - x := by
    rw [abs_of_nonpos (by linarith)]; ring
  unfold mathRound
  simp only [trunc_of_neg h, copysignOne, not_le.mpr h, if_false, habs, ge_iff_le]
  split_ifs with hc
  · have : ⌈x - 1 / 2⌉ = ⌈x⌉ - 1 := by
      rw [Int.ceil_eq_iff]; push_cast; constructor <;> linarith
    rw [this]; push_cast; ring
  · have : ⌈x - 1 / 2⌉ = ⌈x⌉ := by
      rw [Int.ceil_eq_iff]; constructor <;> linarith
    rw [this]

/-- What `math.Round` returns is an integer within one half of the argument. -/
theorem mathRound_spec (x : ℚ) : ∃ k : ℤ, mathRound x = k ∧ |mathRound x - x| ≤ 1 / 2 := by
  rcases le_or_lt 0 x with h | h
  · refine ⟨⌊x + 1 / 2⌋, mathRound_of_nonneg h, ?_⟩
    rw [mathRound_of_nonneg h, abs_le]
    have h1 := Int.floor_le (x + 1 / 2)
    have h2 := Int.lt_floor_add_one (x + 1 / 2)
    constructor <;> linarith
  · refine ⟨⌈x - 1 / 2⌉, mathRound_of_neg h, ?_⟩
    rw [mathRound_of_neg h, abs_le]
    have h1 := Int.le_ceil (x - 1 / 2)
    have h2 := Int.ceil_lt_add_one (x - 1 / 2)
    constructor <;> linarith

/-- An integer strictly closer than one half to `x` is what `math.Round` returns. -/
theorem mathRound_eq_of_abs_lt {x : ℚ} {k : ℤ} (h : |x - k| < 1 / 2) : mathRound x = k := by
  rw [abs_lt] at h
  rcases le_or_lt 0 x with hx | hx
  · rw [mathRound_of_nonneg hx]
    have : ⌊x + 1 / 2⌋ = k := by
      rw [Int.floor_eq_iff]; constructor <;> linarith
    rw [this]
  · rw [mathRound_of_neg hx]
    have : ⌈x - 1 / 2⌉ = k := by
      rw [Int.ceil_eq_iff]; constructor <;> linarith
    rw [this]

/-- A non-negative tie is rounded up. -/
theorem mathRound_tie_nonneg {k : ℤ} (hk : 0 ≤ k) : mathRound ((k : ℚ) + 1 / 2) = (k : ℚ) + 1 := by
  have hk' : (0 : ℚ) ≤ k := by exact_mod_cast hk
  rw [mathRound_of_nonneg (by linarith)]
  have : ⌊(k : ℚ) + 1 / 2 + 1 / 2⌋ = k + 1 := by
    rw [Int.floor_eq_iff]; push_cast; constructor <;> linarith
  rw [this]; push_cast; ring

/-- A negative tie is rounded down. -/
theorem mathRound_tie_neg {k : ℤ} (hk : 0 ≤ k) :
    mathRound (-((k : ℚ) + 1 / 2)) = -((k : ℚ) + 1) := by
  have hk' : (0 : ℚ) ≤ k := by exact_mod_cast hk
  rw [mathRound_of_neg (by linarith)]
  have : ⌈-((k : ℚ) + 1 / 2) - 1 / 2⌉ = -(k + 1) := by
    rw [Int.ceil_eq_iff]; push_cast; constructor <;> linarith
  rw [this]; push_cast; ring

theorem signCorrect_of_le {r : Nat} (h : r ≤ 64000) : signCorrect r = (r : ℚ) / 16 := by
  have h' : (r : ℚ) ≤ 64000 := by exact_mod_cast h
  have : ¬ ((r : ℚ) / 16 > 4000) := by
    rw [gt_iff_lt, not_lt, div_le_iff₀ (by norm_num)]; linarith
  simp [signCorrect, this]

theorem signCorrect_of_gt {r : Nat} (h : 64000 < r) : signCorrect r = (r : ℚ) / 16 - 4096 := by
  have h' : (64000 : ℚ) < r := by exact_mod_cast h
  have : (r : ℚ) / 16 > 4000 := by
    rw [gt_iff_lt, lt_div_iff₀ (by norm_num)]; linarith
  simp [signCorrect, this]

/-! ### float64 rounding -/

theorem roundHalfEven_intCast (n : ℤ) : roundHalfEven (n : ℚ) = n := by
  simp [roundHalfEven]

theorem int_lt_of_cast_lt {a b : ℤ} (h : (a : ℚ) < b) : a < b := by exact_mod_cast h

theorem roundHalfEven_eq_of_abs_lt {y : ℚ} {n : ℤ} (h : |y - n| < 1 / 2) :
    roundHalfEven y = n := by
  rw [abs_lt] at h
  have h1 := Int.floor_le y
  have h2 := Int.lt_floor_add_one y
  unfold roundHalfEven
  simp only
  split_ifs with c1 c2 c3
  · have a1 : ⌊y⌋ < n + 1 := int_lt_of_cast_lt (by push_cast; linarith)
    have a2 : n < ⌊y⌋ + 1 := int_lt_of_cast_lt (by push_cast; linarith)
    omega
  · have a1 : ⌊y⌋ < n := int_lt_of_cast_lt (by linarith)
    have a2 : n < ⌊y⌋ + 2 := int_lt_of_cast_lt (by push_cast; linarith)
    omega
  · exfalso
    have hy : y - ⌊y⌋ = 1 / 2 := le_antisymm (not_lt.mp c2) (not_lt.mp c1)
    have a1 : ⌊y⌋ < n := int_lt_of_cast_lt (by linarith)
    have a2 : n < ⌊y⌋ + 1 := int_lt_of_cast_lt (by push_cast; linarith)
    omega
  · exfalso
    have hy : y - ⌊y⌋ = 1 / 2 := le_antisymm (not_lt.mp c2) (not_lt.mp c1)
    have a1 : ⌊y⌋ < n := int_lt_of_cast_lt (by linarith)
    have a2 : n < ⌊y⌋ + 1 := int_lt_of_cast_lt (by push_cast; linarith)
    omega

theorem abs_roundHalfEven_sub_le (y : ℚ) : |(roundHalfEven y : ℚ) - y| ≤ 1 / 2 := by
  have h1 := Int.floor_le y
  have h2 := Int.lt_floor_add_one y
  unfold roundHalfEven
  simp only
  rw [abs_le]
  split_ifs with c1 c2 c3 <;> push_cast <;> constructor <;> linarith

theorem two_zpow_pos (e : ℤ) : (0 : ℚ) < (2 : ℚ) ^ e := zpow_pos (by norm_num) e

/-- The binary exponent of a non-zero rational is the exponent of the power of two below it. -/
theorem log_two_eq {x : ℚ} {e : ℤ} (h1 : (2 : ℚ) ^ e ≤ |x|) (h2 : |x| < (2 : ℚ) ^ (e + 1)) :
    Int.log 2 |x| = e := by
  have hpos : (0 : ℚ) < |x| := lt_of_lt_of_le (two_zpow_pos e) h1
  have a1 : e ≤ Int.log 2 |x| := by
    rw [← Int.zpow_le_iff_le_log (by norm_num) hpos]; exact_mod_cast h1
  have a2 : Int.log 2 |x| < e + 1 := by
    rw [← Int.lt_zpow_iff_log_lt (by norm_num) hpos]; exact_mod_cast h2
  omega

theorem log_two_spec {x : ℚ} (hx : x ≠ 0) :
    (2 : ℚ) ^ Int.log 2 |x| ≤ |x| ∧ |x| < (2 : ℚ) ^ (Int.log 2 |x| + 1) := by
  have hpos : (0 : ℚ) < |x| := abs_pos.mpr hx
  have a1 := Int.zpow_log_le_self (b := 2) (by norm_num) hpos
  have a2 := Int.lt_zpow_succ_log_self (b := 2) (R := ℚ) (by norm_num) |x|
  exact ⟨by exact_mod_cast a1, by exact_mod_cast a2⟩


theorem one_lt_two_rat : (1 : ℚ) < 2 := by norm_num

/-- A non-zero value `m * 2^j` with `|m| < 2^53` and `-1074 ≤ j ≤ 971` is a binary64 value:
rounding leaves it as it is. -/
theorem ofRat_dyadic (m j : ℤ) (hm : m ≠ 0) (hm53 : |m| < 2 ^ 53) (hj : -1074 ≤ j)
    (hj2 : j ≤ 971) : F64.ofRat ((m : ℚ) * (2 : ℚ) ^ j) = F64.fin ((m : ℚ) * (2 : ℚ) ^ j) := by
  have hmq : (m : ℚ) ≠ 0 := by exact_mod_cast hm
  have hx : (m : ℚ) * (2 : ℚ) ^ j ≠ 0 := mul_ne_zero hmq (ne_of_gt (two_zpow_pos j))
  have habs : |(m : ℚ) * (2 : ℚ) ^ j| = |(m : ℚ)| * (2 : ℚ) ^ j := by
    rw [abs_mul, abs_of_pos (two_zpow_pos j)]
  have hm53q : |(m : ℚ)| < (2 : ℚ) ^ (53 : ℤ) := by
    have : ((|m| : ℤ) : ℚ) < ((2 ^ 53 : ℤ) : ℚ) := by exact_mod_cast hm53
    rw [Int.cast_abs] at this
    calc |(m : ℚ)| < ((2 ^ 53 : ℤ) : ℚ) := this
      _ = (2 : ℚ) ^ (53 : ℤ) := by norm_num
  have hlt : |(m : ℚ) * (2 : ℚ) ^ j| < (2 : ℚ) ^ (53 + j) := by
    rw [habs, zpow_add₀ (by norm_num : (2 : ℚ) ≠ 0)]
    exact mul_lt_mul_of_pos_right hm53q (two_zpow_pos j)
  obtain ⟨hlog, -⟩ := log_two_spec hx
  have he : Int.log 2 |(m : ℚ) * (2 : ℚ) ^ j| < 53 + j :=
    (zpow_lt_zpow_iff_right₀ one_lt_two_rat).mp (lt_of_le_of_lt hlog hlt)
  have hq : quantumExp ((m : ℚ) * (2 : ℚ) ^ j) ≤ j := by
    unfold quantumExp
    exact max_le (by omega) hj
  obtain ⟨d, hd⟩ : ∃ d : ℕ, j = quantumExp ((m : ℚ) * (2 : ℚ) ^ j) + d :=
    ⟨(j - quantumExp ((m : ℚ) * (2 : ℚ) ^ j)).toNat, by omega⟩
  have hdiv : (m : ℚ) * (2 : ℚ) ^ j / (2 : ℚ) ^ quantumExp ((m : ℚ) * (2 : ℚ) ^ j)
      = ((m * 2 ^ d : ℤ) : ℚ) := by
    rw [div_eq_iff (ne_of_gt (two_zpow_pos _))]
    push_cast
    rw [mul_assoc, ← zpow_natCast, ← zpow_add₀ (by norm_num : (2 : ℚ) ≠ 0)]
    congr 2
    omega
  have hback : ((m * 2 ^ d : ℤ) : ℚ) * (2 : ℚ) ^ quantumExp ((m : ℚ) * (2 : ℚ) ^ j)
      = (m : ℚ) * (2 : ℚ) ^ j := by
    rw [← hdiv, div_mul_cancel₀ _ (ne_of_gt (two_zpow_pos _))]
  have hn0 : m * 2 ^ d ≠ 0 := mul_ne_zero hm (pow_ne_zero _ (by norm_num))
  have hfin : ¬ ((2 : ℚ) ^ (1024 : ℤ) ≤ |(m : ℚ) * (2 : ℚ) ^ j|) := by
    rw [not_le]
    exact lt_of_lt_of_le hlt (zpow_le_zpow_right₀ one_lt_two_rat.le (by omega))
  unfold F64.ofRat
  simp only [if_neg hx, hdiv, roundHalfEven_intCast, hback, if_neg hfin, if_neg hn0]

/-- An integer below `2^53` in absolute value is a binary64 value. -/
theorem ofRat_intCast (m : ℤ) (hm : m ≠ 0) (hm53 : |m| < 2 ^ 53) :
    F64.ofRat (m : ℚ) = F64.fin (m : ℚ) := by
  have h := ofRat_dyadic m 0 hm hm53 (by norm_num) (by norm_num)
  simpa using h

/-- The binary64 value of a non-zero `x` from its binary exponent `e` and the integer `n`
nearest to `x` in units of the last place. -/
theorem ofRat_eq {x : ℚ} (e n : ℤ) (h1 : (2 : ℚ) ^ e ≤ |x|) (h2 : |x| < (2 : ℚ) ^ (e + 1))
    (hn : |x / (2 : ℚ) ^ max (e - 52) (-1074) - n| < 1 / 2) (hn0 : n ≠ 0)
    (hfin : |(n : ℚ) * (2 : ℚ) ^ max (e - 52) (-1074)| < (2 : ℚ) ^ (1024 : ℤ)) :
    F64.ofRat x = F64.fin ((n : ℚ) * (2 : ℚ) ^ max (e - 52) (-1074)) := by
  have hx : x ≠ 0 := by
    intro h0
    rw [h0, abs_zero] at h1
    exact absurd h1 (not_le.mpr (two_zpow_pos e))
  have hq : quantumExp x = max (e - 52) (-1074) := by
    unfold quantumExp
    rw [log_two_eq h1 h2]
  unfold F64.ofRat
  simp only [if_neg hx, hq, roundHalfEven_eq_of_abs_lt hn, if_neg (not_le.mpr hfin), if_neg hn0]

/-- The rounding error of binary64: below overflow, the rounded value is within half a unit in
the last place of the exact one. -/
theorem ofRat_error (x : ℚ) (hx : |x| ≤ (2 : ℚ) ^ (1023 : ℤ)) :
    ∃ y : ℚ, (F64.ofRat x = F64.fin y ∨ (F64.ofRat x = F64.negZero ∧ y = 0)) ∧
      |y - x| ≤ |x| / 2 ^ 53 + 1 / 2 ^ 1075 := by
  by_cases h0 : x = 0
  · refine ⟨0, Or.inl (by simp [F64.ofRat, h0]), ?_⟩
    rw [h0]; norm_num
  · obtain ⟨hlog, -⟩ := log_two_spec h0
    have hqpos := two_zpow_pos (quantumExp x)
    have herr := abs_roundHalfEven_sub_le (x / (2 : ℚ) ^ quantumExp x)
    have hy : |(roundHalfEven (x / (2 : ℚ) ^ quantumExp x) : ℚ) * (2 : ℚ) ^ quantumExp x - x|
        ≤ (2 : ℚ) ^ quantumExp x / 2 := by
      have e1 : (roundHalfEven (x / (2 : ℚ) ^ quantumExp x) : ℚ) * (2 : ℚ) ^ quantumExp x - x
          = ((roundHalfEven (x / (2 : ℚ) ^ quantumExp x) : ℚ) - x / (2 : ℚ) ^ quantumExp x)
            * (2 : ℚ) ^ quantumExp x := by
        field_simp
      rw [e1, abs_mul, abs_of_pos hqpos]
      calc |(roundHalfEven (x / (2 : ℚ) ^ quantumExp x) : ℚ) - x / (2 : ℚ) ^ quantumExp x|
            * (2 : ℚ) ^ quantumExp x ≤ 1 / 2 * (2 : ℚ) ^ quantumExp x :=
            mul_le_mul_of_nonneg_right herr hqpos.le
        _ = (2 : ℚ) ^ quantumExp x / 2 := by ring
    have hq : (2 : ℚ) ^ quantumExp x / 2 ≤ |x| / 2 ^ 53 + 1 / 2 ^ 1075 := by
      unfold quantumExp
      rcases le_total (Int.log 2 |x| - 52) (-1074) with hc | hc
      · rw [max_eq_right hc]
        have : (2 : ℚ) ^ (-1074 : ℤ) / 2 = 1 / 2 ^ 1075 := by
          rw [zpow_neg, ← zpow_natCast]; norm_num
        rw [this]
        have := abs_nonneg x
        have : (0 : ℚ) ≤ |x| / 2 ^ 53 := by positivity
        linarith
      · rw [max_eq_left hc]
        have e2 : (2 : ℚ) ^ (Int.log 2 |x| - 52) = (2 : ℚ) ^ Int.log 2 |x| / 2 ^ 52 := by
          rw [zpow_sub₀ (by norm_num : (2 : ℚ) ≠ 0)]; norm_num
        rw [e2]
        have : (0 : ℚ) < 1 / 2 ^ 1075 := by positivity
        have e3 : (2 : ℚ) ^ Int.log 2 |x| / 2 ^ 52 / 2 = (2 : ℚ) ^ Int.log 2 |x| / 2 ^ 53 := by
          ring
        rw [e3]
        have : (2 : ℚ) ^ Int.log 2 |x| / 2 ^ 53 ≤ |x| / 2 ^ 53 :=
          div_le_div_of_nonneg_right hlog (by positivity)
        linarith
    have hfin : ¬ ((2 : ℚ) ^ (1024 : ℤ)
        ≤ |(roundHalfEven (x / (2 : ℚ) ^ quantumExp x) : ℚ) * (2 : ℚ) ^ quantumExp x|) := by
      rw [not_le]
      have t1 : |(roundHalfEven (x / (2 : ℚ) ^ quantumExp x) : ℚ) * (2 : ℚ) ^ quantumExp x|
          ≤ |x| + (|x| / 2 ^ 53 + 1 / 2 ^ 1075) := by
        have := abs_sub_abs_le_abs_sub
          ((roundHalfEven (x / (2 : ℚ) ^ quantumExp x) : ℚ) * (2 : ℚ) ^ quantumExp x) x
        linarith
      have t2 : (2 : ℚ) ^ (1023 : ℤ) / 2 ^ 53 + 1 / 2 ^ 1075 < (2 : ℚ) ^ (1023 : ℤ) := by
        have e4 : (2 : ℚ) ^ (1023 : ℤ) = 2 ^ 1023 := by
          rw [← zpow_natCast]; norm_num
        rw [e4]
        have p1 : (2 : ℚ) ^ 1023 / 2 ^ 53 = 2 ^ 970 := by
          rw [div_eq_iff (by positivity), ← pow_add]
        have p2 : (1 : ℚ) / 2 ^ 1075 ≤ 1 := by
          rw [div_le_iff₀ (by positivity)]
          have : (1 : ℚ) ≤ 2 ^ 1075 := one_le_pow₀ (by norm_num)
          linarith
        have p3 : (2 : ℚ) ^ 970 + 1 < 2 ^ 1023 := by
          have : (2 : ℚ) ^ 1023 = 2 ^ 970 * 2 ^ 53 := by rw [← pow_add]
          have q1 : (1 : ℚ) ≤ 2 ^ 970 := one_le_pow₀ (by norm_num)
          have q2 : (2 : ℚ) ^ 53 = 9007199254740992 := by norm_num
          rw [this, q2]
          linarith
        rw [p1]; linarith
      have t3 : |x| / 2 ^ 53 ≤ (2 : ℚ) ^ (1023 : ℤ) / 2 ^ 53 :=
        div_le_div_of_nonneg_right hx (by positivity)
      have t4 : (2 : ℚ) ^ (1024 : ℤ) = 2 * (2 : ℚ) ^ (1023 : ℤ) := by
        rw [show (1024 : ℤ) = 1023 + 1 by norm_num, zpow_add₀ (by norm_num : (2 : ℚ) ≠ 0)]
        ring
      rw [t4]
      linarith
    unfold F64.ofRat
    simp only [if_neg h0, if_neg hfin]
    split_ifs with hn hneg
    · refine ⟨0, Or.inr ⟨rfl, rfl⟩, ?_⟩
      have := hy
      rw [hn] at this
      simp only [Int.cast_zero, zero_mul] at this
      linarith
    · refine ⟨0, Or.inl rfl, ?_⟩
      have := hy
      rw [hn] at this
      simp only [Int.cast_zero, zero_mul] at this
      linarith
    · exact ⟨_, Or.inl rfl, le_trans hy hq⟩



/-- A non-zero `x` written as `m * 2^j` with `|m| < 2^53` and `-1074 ≤ j ≤ 971` is a binary64
value. -/
theorem ofRat_of_dyadic {x : ℚ} (m j : ℤ) (hx : x = (m : ℚ) * (2 : ℚ) ^ j) (hm : m ≠ 0)
    (hm53 : |m| < 2 ^ 53) (hj : -1074 ≤ j) (hj2 : j ≤ 971) : F64.ofRat x = F64.fin x := by
  rw [hx]
  exact ofRat_dyadic m j hm hm53 hj hj2

/-- A multiple of `1/16` of magnitude below `2^40` is a binary64 value, and so is ten times
it. -/
theorem ofRat_sixteenth (m : ℤ) (hm : |m| < 2 ^ 40) :
    F64.ofRat ((m : ℚ) / 16) = F64.fin ((m : ℚ) / 16) ∧
    F64.ofRat ((m : ℚ) / 16 * 10) = F64.fin ((m : ℚ) / 16 * 10) := by
  by_cases h0 : m = 0
  · subst h0
    simp [F64.ofRat]
  · constructor
    · refine ofRat_of_dyadic m (-4) ?_ h0 (by omega) (by norm_num) (by norm_num)
      rw [zpow_neg]; norm_num; ring
    · refine ofRat_of_dyadic (m * 10) (-4) ?_ (by omega) ?_ (by norm_num) (by norm_num)
      · push_cast; rw [zpow_neg]; norm_num; ring
      · rw [abs_mul]; norm_num; omega

/-- The sign-corrected value of a 16-bit field as a multiple of `1/16`. -/
theorem signCorrect_sixteenth (r : Nat) (hr : r < 65536) :
    ∃ m : ℤ, |m| < 2 ^ 40 ∧ signCorrect r = (m : ℚ) / 16 ∧ (m = 0 ↔ r = 0) ∧
      (r ≤ 64000 → m = r) ∧ (64000 < r → m = (r : ℤ) - 65536) := by
  rcases Nat.lt_or_ge 64000 r with h | h
  · refine ⟨(r : ℤ) - 65536, ?_, ?_, ?_, fun h2 => absurd h (by omega), fun _ => rfl⟩
    · rw [abs_lt]; constructor <;> omega
    · rw [signCorrect_of_gt h]; push_cast; ring
    · constructor <;> intro h2 <;> omega
  · refine ⟨(r : ℤ), ?_, ?_, ?_, fun _ => rfl, fun h2 => absurd h2 (by omega)⟩
    · rw [abs_lt]; constructor <;> omega
    · rw [signCorrect_of_le h]; push_cast; ring
    · constructor <;> intro h2 <;> omega

/-- The float64 operations of `signCorrect` are exact: for a 16-bit field `r`, the quotient
`r/16`, the difference `r/16 - 4096` and the result are binary64 values. -/
theorem signCorrect_exact (r : Nat) (hr : r < 65536) :
    F64.ofRat ((r : ℚ) / 16) = F64.fin ((r : ℚ) / 16) ∧
    F64.ofRat ((r : ℚ) / 16 - 4096) = F64.fin ((r : ℚ) / 16 - 4096) ∧
    F64.ofRat (signCorrect r) = F64.fin (signCorrect r) := by
  have h1 := (ofRat_sixteenth (r : ℤ) (by rw [abs_lt]; constructor <;> omega)).1
  have h2 := (ofRat_sixteenth ((r : ℤ) - 65536) (by rw [abs_lt]; constructor <;> omega)).1
  have e2 : (((r : ℤ) - 65536 : ℤ) : ℚ) / 16 = (r : ℚ) / 16 - 4096 := by push_cast; ring
  rw [e2] at h2
  have e1 : (((r : ℤ) : ℤ) : ℚ) / 16 = (r : ℚ) / 16 := by push_cast; ring
  rw [e1] at h1
  refine ⟨h1, h2, ?_⟩
  rcases Nat.lt_or_ge 64000 r with h | h
  · rw [signCorrect_of_gt h]; exact h2
  · rw [signCorrect_of_le h]; exact h1

/-- Adding a zero offset, of either sign, to a decoded field leaves it as it is. -/
theorem add_signCorrect_zero (r : Nat) (hr : r < 65536) :
    F64.add (F64.fin (signCorrect r)) (F64.fin 0) = F64.fin (signCorrect r) ∧
    F64.add (F64.fin (signCorrect r)) F64.negZero = F64.fin (signCorrect r) := by
  refine ⟨?_, rfl⟩
  simp only [F64.add, add_zero]
  split_ifs with h0
  · rw [h0]
  · exact (signCorrect_exact r hr).2.2

theorem mathRound_eq_roundHalfAwayFromZero (x : ℚ) :
    mathRound x = (roundHalfAwayFromZero x : ℚ) := by
  rcases le_or_lt 0 x with h | h
  · rw [mathRound_of_nonneg h, roundHalfAwayFromZero, if_pos h]
  · rw [mathRound_of_neg h, roundHalfAwayFromZero, if_neg (not_le.mpr h)]

/-- One-decimal rounding of a finite non-zero value whose float64 product with 10 is `y` and
rounds to the non-zero integer `k`. -/
theorem roundTenth_fin {a y : ℚ} {k : ℤ} (ha : a ≠ 0) (hy : F64.ofRat (a * 10) = F64.fin y)
    (hk : mathRound y = k) (hk0 : k ≠ 0) :
    roundTenth (F64.fin a) = F64.ofRat ((k : ℚ) / 10) := by
  have hkq : (k : ℚ) ≠ 0 := by exact_mod_cast hk0
  simp only [roundTenth, F64.mulTen, if_neg ha, hy, F64.mathRound, hk, if_neg hkq, F64.divTen]

/-- One-decimal rounding of a decoded field with no offset: the float64 value nearest to
`round(10x)/10`, the rounding being half away from zero on the exact `10x`. -/
theorem roundTenth_signCorrect (r : Nat) (hr : r < 65536) :
    roundTenth (F64.fin (signCorrect r))
      = F64.ofRat ((roundHalfAwayFromZero (10 * signCorrect r) : ℚ) / 10) := by
  obtain ⟨m, hm, hsc, hm0, -, -⟩ := signCorrect_sixteenth r hr
  by_cases h0 : r = 0
  · subst h0
    have e : signCorrect 0 = 0 := by rw [signCorrect_of_le (by norm_num)]; norm_num
    rw [e]
    have e2 : roundHalfAwayFromZero (10 * 0) = 0 := by
      simp [roundHalfAwayFromZero]
      norm_num
    rw [e2]
    simp [roundTenth, F64.mulTen, F64.mathRound, F64.divTen, mathRound, trunc, F64.ofRat]
  · have hmne : m ≠ 0 := fun h => h0 (hm0.mp h)
    have hmq : (m : ℚ) ≠ 0 := by exact_mod_cast hmne
    have ha : signCorrect r ≠ 0 := by
      rw [hsc]; exact div_ne_zero hmq (by norm_num)
    have hy := (ofRat_sixteenth m hm).2
    rw [← hsc] at hy
    have hk := mathRound_eq_roundHalfAwayFromZero (signCorrect r * 10)
    have hk0 : roundHalfAwayFromZero (signCorrect r * 10) ≠ 0 := by
      intro hz
      obtain ⟨-, hspec⟩ := (mathRound_spec (signCorrect r * 10)).choose_spec
      rw [hk, hz, abs_le] at hspec
      have h1 : (1 : ℚ) ≤ |(m : ℚ)| := by
        have : (1 : ℤ) ≤ |m| := Int.one_le_abs hmne
        exact_mod_cast this
      rw [hsc] at hspec
      rcases abs_cases (m : ℚ) with ⟨hc, -⟩ | ⟨hc, -⟩ <;> rw [hc] at h1 <;>
        norm_num at hspec <;> linarith [hspec.1, hspec.2]
    rw [roundTenth_fin ha hy hk hk0, mul_comm]


/-- The binary64 value of a non-zero `x`, from its binary exponent `e`, the exponent `qe` of
its unit in the last place and the integer `n` nearest to `x` in that unit. -/
theorem ofRat_eq_at {x : ℚ} (e qe n : ℤ) (hq : qe = max (e - 52) (-1074))
    (h1 : (2 : ℚ) ^ e ≤ x) (h2 : x < (2 : ℚ) ^ (e + 1))
    (hn : |x / (2 : ℚ) ^ qe - n| < 1 / 2) (hn0 : n ≠ 0)
    (hfin : |(n : ℚ) * (2 : ℚ) ^ qe| < (2 : ℚ) ^ (1024 : ℤ)) :
    F64.ofRat x = F64.fin ((n : ℚ) * (2 : ℚ) ^ qe) := by
  have hpos : 0 < x := lt_of_lt_of_le (two_zpow_pos e) h1
  rw [← abs_of_pos hpos] at h1 h2
  subst hq
  exact ofRat_eq e n h1 h2 hn hn0 hfin

theorem roundHalfEven_tie (f : ℤ) :
    roundHalfEven ((f : ℚ) + 1 / 2) = if f % 2 = 0 then f else f + 1 := by
  have hf : ⌊(f : ℚ) + 1 / 2⌋ = f := by
    rw [Int.floor_eq_iff]; constructor <;> linarith
  unfold roundHalfEven
  simp only [hf, add_sub_cancel_left, lt_self_iff_false, if_false]

/-- The binary64 value of a non-zero `x` that lies halfway between two binary64 values: the
one whose last place is even. -/
theorem ofRat_eq_tie {x : ℚ} (e qe f n : ℤ) (hq : qe = max (e - 52) (-1074))
    (h1 : (2 : ℚ) ^ e ≤ x) (h2 : x < (2 : ℚ) ^ (e + 1))
    (hx : x / (2 : ℚ) ^ qe = (f : ℚ) + 1 / 2) (hn : n = if f % 2 = 0 then f else f + 1)
    (hn0 : n ≠ 0) (hfin : |(n : ℚ) * (2 : ℚ) ^ qe| < (2 : ℚ) ^ (1024 : ℤ)) :
    F64.ofRat x = F64.fin ((n : ℚ) * (2 : ℚ) ^ qe) := by
  have hpos : 0 < x := lt_of_lt_of_le (two_zpow_pos e) h1
  have hx0 : x ≠ 0 := ne_of_gt hpos
  rw [← abs_of_pos hpos] at h1 h2
  have hqe : quantumExp x = qe := by
    unfold quantumExp
    rw [log_two_eq h1 h2, hq]
  have hr : roundHalfEven (x / (2 : ℚ) ^ qe) = n := by
    rw [hx, roundHalfEven_tie, hn]
  unfold F64.ofRat
  simp only [if_neg hx0, hqe, hr, if_neg (not_le.mpr hfin), if_neg hn0]

/-- The float64 product of the float64 `0.15` and 10 is exactly `1.5`. -/
theorem ofRat_tenTimes015 : F64.ofRat (5404319552844595 / 36028797018963968 * 10) = F64.fin (3 / 2) := by
  have h := @ofRat_eq_at (5404319552844595 / 36028797018963968 * 10) (0) (-52) (6755399441055744) (by decide) (by norm_num)
    (by norm_num) (by norm_num [abs_lt]) (by norm_num) (by norm_num [abs_lt])
  rw [h]
  norm_num

/-- The float64 nearest to `2/10`. -/
theorem ofRat_twoTenths : F64.ofRat (((2 : ℤ) : ℚ) / 10) = F64.fin (3602879701896397 / 18014398509481984) := by
  have h := @ofRat_eq_at (((2 : ℤ) : ℚ) / 10) (-3) (-55) (7205759403792794) (by decide) (by norm_num)
    (by norm_num) (by norm_num [abs_lt]) (by norm_num) (by norm_num [abs_lt])
  rw [h]
  norm_num

/-- The float64 sum of `20.25` and the float64 `0.3` is the float64 `20.55`. -/
theorem ofRat_sum2055 : F64.ofRat (81 / 4 + 5404319552844595 / 18014398509481984) = F64.fin (5784310771403981 / 281474976710656) := by
  have h := @ofRat_eq_at (81 / 4 + 5404319552844595 / 18014398509481984) (4) (-48) (5784310771403981) (by decide) (by norm_num)
    (by norm_num) (by norm_num [abs_lt]) (by norm_num) (by norm_num [abs_lt])
  rw [h]
  norm_num

/-- The float64 product of the float64 `20.55` and 10 is exactly `205.5`. -/
theorem ofRat_tenTimes2055 : F64.ofRat (5784310771403981 / 281474976710656 * 10) = F64.fin (411 / 2) := by
  have h := @ofRat_eq_at (5784310771403981 / 281474976710656 * 10) (7) (-45) (7230388464254976) (by decide) (by norm_num)
    (by norm_num) (by norm_num [abs_lt]) (by norm_num) (by norm_num [abs_lt])
  rw [h]
  norm_num

/-- The float64 nearest to `206/10`. -/
theorem ofRat_206tenths : F64.ofRat (((206 : ℤ) : ℚ) / 10) = F64.fin (2899192260119757 / 140737488355328) := by
  have h := @ofRat_eq_at (((206 : ℤ) : ℚ) / 10) (4) (-48) (5798384520239514) (by decide) (by norm_num)
    (by norm_num) (by norm_num [abs_lt]) (by norm_num) (by norm_num [abs_lt])
  rw [h]
  norm_num

/-- The float64 nearest to `23.449999`. -/
theorem ofRat_23449999 : F64.ofRat (23449999 / 1000000) = F64.fin (3300293961194953 / 140737488355328) := by
  have h := @ofRat_eq_at (23449999 / 1000000) (4) (-48) (6600587922389906) (by decide) (by norm_num)
    (by norm_num) (by norm_num [abs_lt]) (by norm_num) (by norm_num [abs_lt])
  rw [h]
  norm_num

/-- The float64 product of the float64 `23.449999` and 10. (The exact result lies halfway between two float64 values.) -/
theorem ofRat_tenTimes23449999 : F64.ofRat (3300293961194953 / 140737488355328 * 10) = F64.fin (4125367451493691 / 17592186044416) := by
  have h := @ofRat_eq_tie (3300293961194953 / 140737488355328 * 10) (7) (-45) (8250734902987382) (8250734902987382) (by decide) (by norm_num)
    (by norm_num) (by norm_num) (by decide) (by norm_num) (by norm_num [abs_lt])
  rw [h]
  norm_num

/-- The float64 nearest to `23.45`. -/
theorem ofRat_2345 : F64.ofRat (2345 / 100) = F64.fin (6600588203864883 / 281474976710656) := by
  have h := @ofRat_eq_at (2345 / 100) (4) (-48) (6600588203864883) (by decide) (by norm_num)
    (by norm_num) (by norm_num [abs_lt]) (by norm_num) (by norm_num [abs_lt])
  rw [h]
  norm_num

/-- The float64 product of the float64 `23.45` and 10 is exactly `234.5`. -/
theorem ofRat_tenTimes2345 : F64.ofRat (6600588203864883 / 281474976710656 * 10) = F64.fin (469 / 2) := by
  have h := @ofRat_eq_at (6600588203864883 / 281474976710656 * 10) (7) (-45) (8250735254831104) (by decide) (by norm_num)
    (by norm_num) (by norm_num [abs_lt]) (by norm_num) (by norm_num [abs_lt])
  rw [h]
  norm_num


/-- The error of one-decimal rounding in float64: for a finite `a` of magnitude at most
`2^1000` the result is finite and within `1/20 + (|a| + 1)/2^50` of `a`. -/
theorem roundTenth_error (a : ℚ) (ha : |a| ≤ 2 ^ 1000) :
    ∃ t : ℚ, (roundTenth (F64.fin a) = F64.fin t ∨
        (roundTenth (F64.fin a) = F64.negZero ∧ t = 0)) ∧
      |t - a| ≤ 1 / 20 + (|a| + 1) / 2 ^ 50 := by
  have hA := abs_nonneg a
  have hε : (1 : ℚ) / 2 ^ 1075 ≤ 1 / 2 ^ 60 := by norm_num
  have hε0 : (0 : ℚ) < 1 / 2 ^ 1075 := by positivity
  by_cases h0 : a = 0
  · refine ⟨0, Or.inl ?_, ?_⟩
    · simp [roundTenth, F64.mulTen, F64.mathRound, F64.divTen, mathRound, trunc, h0]
    · rw [h0]; norm_num
  · have habs10 : |a * 10| = |a| * 10 := by rw [abs_mul]; norm_num
    have hb : |a * 10| ≤ (2 : ℚ) ^ (1023 : ℤ) := by
      rw [habs10]
      have e : (2 : ℚ) ^ (1023 : ℤ) = 2 ^ 1000 * 2 ^ 23 := by
        rw [← zpow_natCast, ← zpow_natCast, ← zpow_add₀ (by norm_num : (2 : ℚ) ≠ 0)]; norm_num
      rw [e]
      have : (10 : ℚ) ≤ 2 ^ 23 := by norm_num
      have h1000 : (0 : ℚ) < 2 ^ 1000 := by positivity
      nlinarith
    clear ha
    obtain ⟨y, hy, hyerr⟩ := ofRat_error (a * 10) hb
    rw [habs10] at hyerr
    have hy1 := abs_sub_abs_le_abs_sub y (a * 10)
    have hy2 := abs_sub_abs_le_abs_sub (a * 10) y
    rw [abs_sub_comm (a * 10) y, habs10] at hy2
    rw [habs10] at hy1
    rcases hy with hy | ⟨hy, rfl⟩
    · obtain ⟨k, hk, hkerr⟩ := mathRound_spec y
      rw [hk] at hkerr
      have hk1 := abs_sub_abs_le_abs_sub (k : ℚ) y
      have hk2 := abs_sub_abs_le_abs_sub y (k : ℚ)
      rw [abs_sub_comm y (k : ℚ)] at hk2
      by_cases hk0 : k = 0
      · have hkq : mathRound y = 0 := by rw [hk, hk0]; norm_num
        have hyle : |y| ≤ 1 / 2 := by
          rw [hk0] at hkerr
          simpa [abs_neg] using hkerr
        have hres : roundTenth (F64.fin a) = F64.fin 0 ∨ roundTenth (F64.fin a) = F64.negZero := by
          simp only [roundTenth, F64.mulTen, if_neg h0, hy, F64.mathRound, hkq, if_true]
          split_ifs
          · exact Or.inr rfl
          · exact Or.inl (by simp [F64.divTen])
        refine ⟨0, ?_, ?_⟩
        · rcases hres with h | h
          · exact Or.inl h
          · exact Or.inr ⟨h, rfl⟩
        · rw [zero_sub, abs_neg]
          have : |a| / 2 ^ 53 ≤ |a| / 2 ^ 50 := by
            apply div_le_div_of_nonneg_left hA (by positivity) (by norm_num)
          have e50 : (1 : ℚ) / 2 ^ 60 ≤ 1 / 2 ^ 50 := by norm_num
          have expand : (|a| + 1) / 2 ^ 50 = |a| / 2 ^ 50 + 1 / 2 ^ 50 := by ring
          have e53 : |a| * 10 / 2 ^ 53 = 10 * (|a| / 2 ^ 53) := by ring
          rw [expand]
          rw [e53] at hyerr
          linarith
      · have hkq : mathRound y ≠ 0 := by
          rw [hk]; exact_mod_cast hk0
        have hkne : (k : ℚ) ≠ 0 := by exact_mod_cast hk0
        have hmr : F64.mathRound (F64.fin y) = F64.fin (k : ℚ) := by
          simp only [F64.mathRound, hk, if_neg hkne]
        have hres : roundTenth (F64.fin a) = F64.ofRat ((k : ℚ) / 10) := by
          simp only [roundTenth, F64.mulTen, if_neg h0, hy, hmr, F64.divTen, if_neg hkne]
        have habsk : |(k : ℚ) / 10| = |(k : ℚ)| / 10 := by rw [abs_div]; norm_num
        have e53 : |a| * 10 / 2 ^ 53 = 10 * (|a| / 2 ^ 53) := by ring
        rw [e53] at hyerr
        have hle53 : |a| / 2 ^ 53 ≤ |a| := div_le_self hA (by norm_num)
        have hkb : |(k : ℚ) / 10| ≤ (2 : ℚ) ^ (1023 : ℤ) := by
          rw [habsk]
          have e : (2 : ℚ) ^ (1023 : ℤ) = 2 ^ 1000 * 2 ^ 23 := by
            rw [← zpow_natCast, ← zpow_natCast, ← zpow_add₀ (by norm_num : (2 : ℚ) ≠ 0)]
            norm_num
          rw [e]
          have h23 : (2 : ℚ) ^ 23 = 8388608 := by norm_num
          have h1000 : (1 : ℚ) ≤ 2 ^ 1000 := one_le_pow₀ (by norm_num)
          rw [h23]
          have e60 : (1 : ℚ) / 2 ^ 60 ≤ 1 := by norm_num
          linarith
        obtain ⟨t, ht, hterr⟩ := ofRat_error ((k : ℚ) / 10) hkb
        rw [habsk] at hterr
        refine ⟨t, ?_, ?_⟩
        · rw [hres]
          exact ht
        · have hka := abs_le.mp hkerr
          have hya := abs_le.mp hyerr
          have hta := abs_le.mp hterr
          have hkK : |(k : ℚ)| ≤ |a| * 10 + (10 * (|a| / 2 ^ 53) + 1 / 2 ^ 1075) + 1 / 2 := by
            linarith
          have hK0 := abs_nonneg (k : ℚ)
          have d1 : |(k : ℚ)| / 10 / 2 ^ 53 ≤ (|a| + 1) / 2 ^ 52 := by
            rw [div_div, div_le_div_iff₀ (by positivity) (by positivity)]
            have : (0 : ℚ) ≤ |a| / 2 ^ 53 := by positivity
            have e60 : (1 : ℚ) / 2 ^ 60 ≤ 1 := by norm_num
            have hle53' : |a| / 2 ^ 53 ≤ |a| := hle53
            norm_num
            norm_num at hkK
            linarith
          have d2 : |a| / 2 ^ 53 ≤ (|a| + 1) / 2 ^ 53 := by
            apply div_le_div_of_nonneg_right (by linarith) (by positivity)
          have hsum : (|a| + 1) / 2 ^ 52 + (|a| + 1) / 2 ^ 53 + 2 * (1 / 2 ^ 60)
              ≤ (|a| + 1) / 2 ^ 50 := by
            have e1 : (|a| + 1) / 2 ^ 52 = (|a| + 1) / 2 ^ 50 / 4 := by ring
            have e2 : (|a| + 1) / 2 ^ 53 = (|a| + 1) / 2 ^ 50 / 8 := by ring
            have e3 : (1 : ℚ) / 2 ^ 60 = 1 / 2 ^ 50 / 1024 := by norm_num
            have e4 : (1 : ℚ) / 2 ^ 50 ≤ (|a| + 1) / 2 ^ 50 :=
              div_le_div_of_nonneg_right (by linarith) (by positivity)
            have e5 : (0 : ℚ) ≤ (|a| + 1) / 2 ^ 50 := by positivity
            rw [e1, e2, e3]
            linarith
          rw [abs_le]
          constructor <;> linarith [hka.1, hka.2, hya.1, hya.2, hta.1, hta.2]
    · refine ⟨0, Or.inr ⟨?_, rfl⟩, ?_⟩
      · simp only [roundTenth, F64.mulTen, if_neg h0, hy, F64.mathRound, F64.divTen]
      · rw [zero_sub, abs_neg]
        simp only [abs_zero, zero_sub, neg_nonpos] at hy2
        have : |a| / 2 ^ 53 ≤ |a| / 2 ^ 50 := by
          apply div_le_div_of_nonneg_left hA (by positivity) (by norm_num)
        have e50 : (1 : ℚ) / 2 ^ 60 ≤ 1 / 2 ^ 50 := by norm_num
        have expand : (|a| + 1) / 2 ^ 50 = |a| / 2 ^ 50 + 1 / 2 ^ 50 := by ring
        have e53 : |a| * 10 / 2 ^ 53 = 10 * (|a| / 2 ^ 53) := by ring
        rw [expand]
        rw [zero_sub, abs_neg, habs10, e53] at hyerr
        linarith

theorem roundHalfAwayFromZero_eq_of_mathRound {x : ℚ} {k : ℤ} (h : mathRound x = k) :
    roundHalfAwayFromZero x = k := by
  rw [mathRound_eq_roundHalfAwayFromZero] at h
  exact_mod_cast h

/-- One-decimal rounding of the float64 sum of two values whose exact sum is a non-zero
multiple of `1/16`: the sum and its product with 10 are exact. -/
theorem roundTenth_add_sixteenth {a c : ℚ} (m k : ℤ) (hsum : a + c = (m : ℚ) / 16)
    (hm : |m| < 2 ^ 40) (hm0 : m ≠ 0) (hk : mathRound ((m : ℚ) / 16 * 10) = k) (hk0 : k ≠ 0) :
    roundTenth (F64.add (F64.fin a) (F64.fin c)) = F64.ofRat ((k : ℚ) / 10) := by
  have hmq : (m : ℚ) ≠ 0 := by exact_mod_cast hm0
  have hne : (m : ℚ) / 16 ≠ 0 := div_ne_zero hmq (by norm_num)
  have hadd : F64.add (F64.fin a) (F64.fin c) = F64.fin ((m : ℚ) / 16) := by
    simp only [F64.add, hsum, if_neg hne, (ofRat_sixteenth m hm).1]
  rw [hadd]
  exact roundTenth_fin hne (ofRat_sixteenth m hm).2 hk hk0

/-- The properties of one-decimal rounding in float64 that the claims use. With `y` the
float64 product `x * 10`: the result is the float64 nearest to `k/10`, where the integer `k`
is `y` rounded half away from zero; a tie of `y` goes away from zero; for a finite `x` of
magnitude at most `2^1000` the result is within `1/20 + (|x| + 1)/2^50` of `x`; the float64
values nearest to 23.449999 and 23.45 give those nearest to 23.4 and 23.5. -/
theorem roundTenth_spec (x : F64) :
    roundTenth x = F64.divTen (F64.mathRound (F64.mulTen x)) ∧
    (∀ y : ℚ, F64.mulTen x = F64.fin y →
      |(roundHalfAwayFromZero y : ℚ) - y| ≤ 1 / 2 ∧
      (roundHalfAwayFromZero y ≠ 0 →
        roundTenth x = F64.ofRat ((roundHalfAwayFromZero y : ℚ) / 10)) ∧
      (roundHalfAwayFromZero y = 0 →
        roundTenth x = F64.fin 0 ∨ roundTenth x = F64.negZero)) ∧
    (∀ k : ℤ, 0 ≤ k → F64.mulTen x = F64.fin ((k : ℚ) + 1 / 2) →
      roundTenth x = F64.ofRat (((k + 1 : ℤ) : ℚ) / 10)) ∧
    (∀ k : ℤ, 0 ≤ k → F64.mulTen x = F64.fin (-((k : ℚ) + 1 / 2)) →
      roundTenth x = F64.ofRat (((-(k + 1) : ℤ) : ℚ) / 10)) ∧
    (∀ a : ℚ, x = F64.fin a → |a| ≤ 2 ^ 1000 →
      ∃ t : ℚ, (roundTenth x = F64.fin t ∨ (roundTenth x = F64.negZero ∧ t = 0)) ∧
        |t - a| ≤ 1 / 20 + (|a| + 1) / 2 ^ 50) ∧
    (x = F64.ofRat (23449999 / 1000000) → roundTenth x = F64.ofRat (234 / 10)) ∧
    (x = F64.ofRat (2345 / 100) → roundTenth x = F64.ofRat (235 / 10)) := by
  have hfin : ∀ (y : ℚ) (k : ℤ), F64.mulTen x = F64.fin y → mathRound y = k → k ≠ 0 →
      roundTenth x = F64.ofRat ((k : ℚ) / 10) := by
    intro y k hy hk hk0
    have hkq : (k : ℚ) ≠ 0 := by exact_mod_cast hk0
    simp only [roundTenth, hy, F64.mathRound, hk, if_neg hkq, F64.divTen]
  refine ⟨rfl, ?_, ?_, ?_, ?_, ?_, ?_⟩
  · intro y hy
    have hk := mathRound_eq_roundHalfAwayFromZero y
    refine ⟨?_, fun hk0 => hfin y _ hy hk hk0, fun hk0 => ?_⟩
    · obtain ⟨-, hspec⟩ := (mathRound_spec y).choose_spec
      rw [hk] at hspec
      exact hspec
    · have hz : mathRound y = 0 := by rw [hk, hk0]; norm_num
      simp only [roundTenth, hy, F64.mathRound, hz, if_true]
      split_ifs
      · exact Or.inr rfl
      · exact Or.inl (by simp [F64.divTen])
  · intro k hk hy
    refine hfin _ (k + 1) hy ?_ (by omega)
    rw [mathRound_tie_nonneg hk]; push_cast; ring
  · intro k hk hy
    refine hfin _ (-(k + 1)) hy ?_ (by omega)
    rw [mathRound_tie_neg hk]; push_cast; ring
  · intro a hx ha
    rw [hx]
    exact roundTenth_error a ha
  · intro hx
    rw [hx, ofRat_23449999]
    have hk : mathRound (4125367451493691 / 17592186044416) = ((234 : ℤ) : ℚ) :=
      mathRound_eq_of_abs_lt (by norm_num [abs_lt])
    have h := roundTenth_fin (by norm_num) ofRat_tenTimes23449999 hk (by norm_num)
    rw [h]
    norm_num
  · intro hx
    rw [hx, ofRat_2345]
    have hk : mathRound (469 / 2) = ((235 : ℤ) : ℚ) := by
      have e := mathRound_tie_nonneg (show (0 : ℤ) ≤ 234 by norm_num)
      have e2 : ((234 : ℤ) : ℚ) + 1 / 2 = 469 / 2 := by norm_num
      rw [e2] at e
      rw [e]; norm_num
    have h := roundTenth_fin (by norm_num) ofRat_tenTimes2345 hk (by norm_num)
    rw [h]
    norm_num

/-- The locals decoded from `wirePayload` under `exampleGlobals`. -/
theorem parseLocals_wirePayload :
    parseLocals exampleGlobals wirePayload = some
      { macAdr := "FF:EE:DD:CC:BB:AA", name := "", tempCal := F64.fin 0, humCal := F64.fin 0,
        batLevel := 2906, uptime := 60, temperatureInt := 64000,
        temperature := F64.add (F64.fin (signCorrect 64000)) (F64.fin 0),
        humidityInt := 64016,
        humidity := F64.add (F64.fin (signCorrect 64016)) (F64.fin 0) } := by
  rw [wirePayload, parseLocals_eval]
  rfl

theorem roundTenth_signCorrect_256 :
    roundTenth (F64.add (F64.fin (signCorrect (0 + 256 * 1))) (F64.fin 0)) = F64.fin 16 := by
  have hs : signCorrect (0 + 256 * 1) + 0 = ((256 : ℤ) : ℚ) / 16 := by
    rw [signCorrect_of_le (by norm_num)]; norm_num
  have hk : mathRound (((256 : ℤ) : ℚ) / 16 * 10) = ((160 : ℤ) : ℚ) :=
    mathRound_eq_of_abs_lt (by norm_num)
  rw [roundTenth_add_sixteenth 256 160 hs (by norm_num) (by norm_num) hk (by norm_num)]
  have h := ofRat_intCast 16 (by norm_num) (by norm_num)
  norm_num at h ⊢
  exact h

/-- What `parseWS02Data` returns on the payload of the end-to-end example. -/
theorem endToEndPayload_eval (g : Globals) (b0 b1 : Byte) (rssi : Int)
    (hi : g.insideSensor = "AA:BB:CC:DD:EE:FF") (ht : g.insideTempCal = F64.fin 0)
    (hh : g.insideHumCal = F64.fin 0) :
    parseWS02Data g [b0, b1, 0xFF, 0xEE, 0xDD, 0xCC, 0xBB, 0xAA, 0x64, 0x00, 0x00, 0x01,
        0x00, 0x01, 0x00, 0x00, 0x00, 0x3C] rssi
      = some { MacAddress := "AA:BB:CC:DD:EE:FF", Name := "Inside", BatLevel := 100,
               RSSI := rssi, Uptime := 1006632960, Temperature := F64.fin 16,
               Humidity := F64.fin 16 } := by
  have hm : macString 0xFF 0xEE 0xDD 0xCC 0xBB 0xAA = "AA:BB:CC:DD:EE:FF" := by decide
  rw [parseWS02Data_eval, hm, hi, ht, hh]
  simp only [if_true]
  have e : ((0 : Byte).val + 256 * (1 : Byte).val) = 0 + 256 * 1 := rfl
  rw [e, roundTenth_signCorrect_256]
  rfl

/-- The locals decoded from `roundingPayload` under `roundingGlobals`. -/
theorem parseLocals_roundingPayload :
    parseLocals roundingGlobals roundingPayload = some
      { macAdr := "AA:BB:CC:DD:EE:FF", name := "Inside",
        tempCal := F64.fin (5404319552844595 / 36028797018963968),
        humCal := F64.fin (5404319552844595 / 18014398509481984),
        batLevel := 100, uptime := 60, temperatureInt := 0,
        temperature := F64.add (F64.fin (signCorrect 0))
          (F64.fin (5404319552844595 / 36028797018963968)),
        humidityInt := 324,
        humidity := F64.add (F64.fin (signCorrect 324))
          (F64.fin (5404319552844595 / 18014398509481984)) } := by
  rw [roundingPayload, parseLocals_eval]
  rfl

/-- The float64 arithmetic of `parseWS02Data` on `roundingPayload` under `roundingGlobals`:
the sums are the float64 values `0.15` and `20.55`, and the results the float64 values `0.2`
and `20.6`. -/
theorem roundingPayload_values :
    F64.add (F64.fin (signCorrect 0)) (F64.fin (5404319552844595 / 36028797018963968))
      = F64.fin (5404319552844595 / 36028797018963968) ∧
    roundTenth (F64.fin (5404319552844595 / 36028797018963968))
      = F64.fin (3602879701896397 / 18014398509481984) ∧
    F64.add (F64.fin (signCorrect 324)) (F64.fin (5404319552844595 / 18014398509481984))
      = F64.fin (5784310771403981 / 281474976710656) ∧
    roundTenth (F64.fin (5784310771403981 / 281474976710656))
      = F64.fin (2899192260119757 / 140737488355328) := by
  have s0 : signCorrect 0 = 0 := by rw [signCorrect_of_le (by norm_num)]; norm_num
  have s324 : signCorrect 324 = 81 / 4 := by rw [signCorrect_of_le (by norm_num)]; norm_num
  refine ⟨?_, ?_, ?_, ?_⟩
  · rw [s0]
    simp only [F64.add, zero_add]
    rw [if_neg (by norm_num)]
    exact ofRat_of_dyadic 5404319552844595 (-55) (by rw [zpow_neg]; norm_num) (by norm_num)
      (by norm_num) (by norm_num) (by norm_num)
  · have hk : mathRound (3 / 2) = ((2 : ℤ) : ℚ) := by
      have e := mathRound_tie_nonneg (show (0 : ℤ) ≤ 1 by norm_num)
      have e2 : ((1 : ℤ) : ℚ) + 1 / 2 = 3 / 2 := by norm_num
      rw [e2] at e
      rw [e]; norm_num
    rw [roundTenth_fin (by norm_num) ofRat_tenTimes015 hk (by norm_num)]
    exact ofRat_twoTenths
  · rw [s324]
    simp only [F64.add]
    rw [if_neg (by norm_num)]
    exact ofRat_sum2055
  · have hk : mathRound (411 / 2) = ((206 : ℤ) : ℚ) := by
      have e := mathRound_tie_nonneg (show (0 : ℤ) ≤ 205 by norm_num)
      have e2 : ((205 : ℤ) : ℚ) + 1 / 2 = 411 / 2 := by norm_num
      rw [e2] at e
      rw [e]; norm_num
    rw [roundTenth_fin (by norm_num) ofRat_tenTimes2055 hk (by norm_num)]
    exact ofRat_206tenths

theorem digitChar_value (k : Nat) (h : k < 10) : (Nat.digitChar k).toNat - 48 = k := by
  interval_cases k <;> rfl

theorem foldl_toDigitsCore (fuel : Nat) : ∀ (n : Nat) (ds : List Char), n < fuel →
    (Nat.toDigitsCore 10 fuel n ds).foldl (fun acc c => 10 * acc + (c.toNat - 48)) 0
      = ds.foldl (fun acc c => 10 * acc + (c.toNat - 48)) n := by
  induction fuel with
  | zero => intro n ds hn; omega
  | succ fuel ih =>
    intro n ds hn
    have hd := digitChar_value (n % 10) (Nat.mod_lt _ (by norm_num))
    rw [Nat.toDigitsCore]
    split_ifs with h0
    · rw [List.foldl_cons, hd]
      congr 1
      omega
    · rw [ih (n / 10) _ (by omega), List.foldl_cons, hd]
      congr 1
      omega

/-- Reading back the text that `%d` prints gives the number printed. -/
theorem decimalValue_fmtDecimal (n : Nat) : decimalValue (fmtDecimal n) = n := by
  simp only [decimalValue, fmtDecimal, Nat.repr, Nat.toDigits, List.asString]
  rw [foldl_toDigitsCore (n + 1) n [] (by omega)]
  rfl

theorem parseWS02Data_insidePayload :
    parseWS02Data exampleGlobals insidePayload (-71) = some
      { MacAddress := "AA:BB:CC:DD:EE:FF", Name := "Inside", BatLevel := 100, RSSI := -71,
        Uptime := 90061,
        Temperature := roundTenth (F64.add (F64.fin (signCorrect 368)) (F64.fin (1 / 2))),
        Humidity := roundTenth (F64.add (F64.fin (signCorrect 64016)) (F64.fin (-2))) } := by
  rw [insidePayload, parseWS02Data_eval]
  rfl

theorem parseWS02Data_outsidePayload :
    parseWS02Data exampleGlobals outsidePayload (-71) = some
      { MacAddress := "11:22:33:44:55:66", Name := "Outside", BatLevel := 2906, RSSI := -71,
        Uptime := 60,
        Temperature := roundTenth (F64.add (F64.fin (signCorrect 64016)) (F64.fin (-3 / 4))),
        Humidity := roundTenth (F64.add (F64.fin (signCorrect 800)) (F64.fin 5)) } := by
  rw [outsidePayload, parseWS02Data_eval]
  rfl

theorem parseWS02Data_zeroAddressPayload :
    parseWS02Data exampleGlobals zeroAddressPayload (-71) = some
      { MacAddress := "00:00:00:00:00:00", Name := "", BatLevel := 100, RSSI := -71,
        Uptime := 60,
        Temperature := roundTenth (F64.add (F64.fin (signCorrect 368)) (F64.fin 0)),
        Humidity := roundTenth (F64.add (F64.fin (signCorrect 800)) (F64.fin 0)) } := by
  rw [zeroAddressPayload, parseWS02Data_eval]
  rfl

theorem parseWS02Data_duplicateGlobals :
    parseWS02Data duplicateGlobals insidePayload (-71) = some
      { MacAddress := "AA:BB:CC:DD:EE:FF", Name := "Inside", BatLevel := 100, RSSI := -71,
        Uptime := 90061,
        Temperature := roundTenth (F64.add (F64.fin (signCorrect 368)) (F64.fin (1 / 2))),
        Humidity := roundTenth (F64.add (F64.fin (signCorrect 64016)) (F64.fin (-2))) } := by
  rw [insidePayload, parseWS02Data_eval]
  rfl

/-- The rounded values of the example payloads; -95.8 is not a binary64 value and stands
for the float64 nearest to it. -/
theorem roundTenth_examples :
    roundTenth (F64.add (F64.fin (signCorrect 368)) (F64.fin (1 / 2))) = F64.fin (235 / 10) ∧
    roundTenth (F64.add (F64.fin (signCorrect 64016)) (F64.fin (-2))) = F64.fin (-97) ∧
    roundTenth (F64.add (F64.fin (signCorrect 64016)) (F64.fin (-3 / 4)))
      = F64.ofRat (-958 / 10) ∧
    roundTenth (F64.add (F64.fin (signCorrect 800)) (F64.fin 5)) = F64.fin 55 ∧
    roundTenth (F64.add (F64.fin (signCorrect 368)) (F64.fin 0)) = F64.fin 23 ∧
    roundTenth (F64.add (F64.fin (signCorrect 800)) (F64.fin 0)) = F64.fin 50 := by
  have s368 : signCorrect 368 = 23 := by rw [signCorrect_of_le (by norm_num)]; norm_num
  have s800 : signCorrect 800 = 50 := by rw [signCorrect_of_le (by norm_num)]; norm_num
  have s64016 : signCorrect 64016 = -95 := by rw [signCorrect_of_gt (by norm_num)]; norm_num
  have i23 := ofRat_intCast 23 (by norm_num) (by norm_num)
  have i50 := ofRat_intCast 50 (by norm_num) (by norm_num)
  have i55 := ofRat_intCast 55 (by norm_num) (by norm_num)
  have i97 := ofRat_intCast (-97) (by norm_num) (by norm_num)
  have h235 : F64.ofRat (47 / 2) = F64.fin (47 / 2) :=
    ofRat_of_dyadic 47 (-1) (by rw [zpow_neg]; norm_num) (by norm_num) (by norm_num)
      (by norm_num) (by norm_num)
  refine ⟨?_, ?_, ?_, ?_, ?_, ?_⟩
  · have hk : mathRound (((376 : ℤ) : ℚ) / 16 * 10) = ((235 : ℤ) : ℚ) :=
      mathRound_eq_of_abs_lt (by norm_num)
    rw [roundTenth_add_sixteenth 376 235 (by rw [s368]; norm_num) (by norm_num) (by norm_num)
      hk (by norm_num)]
    norm_num
    exact h235
  · have hk : mathRound (((-1552 : ℤ) : ℚ) / 16 * 10) = ((-970 : ℤ) : ℚ) :=
      mathRound_eq_of_abs_lt (by norm_num)
    rw [roundTenth_add_sixteenth (-1552) (-970) (by rw [s64016]; norm_num) (by norm_num)
      (by norm_num) hk (by norm_num)]
    norm_num at i97 ⊢
    exact i97
  · have hk : mathRound (((-1532 : ℤ) : ℚ) / 16 * 10) = ((-958 : ℤ) : ℚ) := by
      have e := mathRound_tie_neg (show (0 : ℤ) ≤ 957 by norm_num)
      have e2 : -(((957 : ℤ) : ℚ) + 1 / 2) = ((-1532 : ℤ) : ℚ) / 16 * 10 := by norm_num
      rw [e2] at e
      rw [e]; norm_num
    rw [roundTenth_add_sixteenth (-1532) (-958) (by rw [s64016]; norm_num) (by norm_num)
      (by norm_num) hk (by norm_num)]
    norm_num
  · have hk : mathRound (((880 : ℤ) : ℚ) / 16 * 10) = ((550 : ℤ) : ℚ) :=
      mathRound_eq_of_abs_lt (by norm_num)
    rw [roundTenth_add_sixteenth 880 550 (by rw [s800]; norm_num) (by norm_num) (by norm_num)
      hk (by norm_num)]
    norm_num at i55 ⊢
    exact i55
  · have hk : mathRound (((368 : ℤ) : ℚ) / 16 * 10) = ((230 : ℤ) : ℚ) :=
      mathRound_eq_of_abs_lt (by norm_num)
    rw [roundTenth_add_sixteenth 368 230 (by rw [s368]; norm_num) (by norm_num) (by norm_num)
      hk (by norm_num)]
    norm_num at i23 ⊢
    exact i23
  · have hk : mathRound (((800 : ℤ) : ℚ) / 16 * 10) = ((500 : ℤ) : ℚ) :=
      mathRound_eq_of_abs_lt (by norm_num)
    rw [roundTenth_add_sixteenth 800 500 (by rw [s800]; norm_num) (by norm_num) (by norm_num)
      hk (by norm_num)]
    norm_num at i50 ⊢
    exact i50

/-- The locals decoded from `rawUnitsPayload` under `exampleGlobals`. -/
theorem parseLocals_rawUnitsPayload :
    parseLocals exampleGlobals rawUnitsPayload = some
      { macAdr := "FF:EE:DD:CC:BB:AA", name := "", tempCal := F64.fin 0, humCal := F64.fin 0,
        batLevel := 100, uptime := 60, temperatureInt := 4016,
        temperature := F64.add (F64.fin (signCorrect 4016)) (F64.fin 0),
        humidityInt := 4000,
        humidity := F64.add (F64.fin (signCorrect 4000)) (F64.fin 0) } := by
  rw [rawUnitsPayload, parseLocals_eval]
  rfl

/-- The sign of the sign-corrected value of a 16-bit field, and its range. -/
theorem signCorrect_facts (r : Nat) (hr : r < 65536) :
    (64000 < r → signCorrect r = (r : ℚ) / 16 - 4096 ∧ signCorrect r < 0) ∧
    (r ≤ 64000 → signCorrect r = (r : ℚ) / 16 ∧ 0 ≤ signCorrect r) ∧
    signCorrect r = integerDomainCorrect r ∧
    (signCorrect r < 0 ↔ 64000 < r) ∧
    -(15350 / 160 : ℚ) ≤ signCorrect r ∧ signCorrect r ≤ 4000 := by
  have hr' : (r : ℚ) < 65536 := by exact_mod_cast hr
  have h0 : (0 : ℚ) ≤ r := Nat.cast_nonneg r
  rcases Nat.lt_or_ge 64000 r with h | h
  · have h' : (64001 : ℚ) ≤ r := by exact_mod_cast h
    have e := signCorrect_of_gt h
    refine ⟨fun _ => ⟨e, by rw [e]; linarith⟩, fun h2 => absurd h (by omega), ?_,
      ⟨fun _ => h, fun _ => by rw [e]; linarith⟩, by rw [e]; linarith, by rw [e]; linarith⟩
    rw [e, integerDomainCorrect, if_pos h]
    push_cast
    ring
  · have h' : (r : ℚ) ≤ 64000 := by exact_mod_cast h
    have e := signCorrect_of_le h
    have hnn : (0 : ℚ) ≤ (r : ℚ) / 16 := by positivity
    refine ⟨fun h2 => absurd h2 (by omega), fun _ => ⟨e, by rw [e]; exact hnn⟩, ?_,
      ⟨fun hneg => ?_, fun h2 => absurd h2 (by omega)⟩, by rw [e]; linarith,
      by rw [e]; linarith⟩
    · rw [e, integerDomainCorrect, if_neg (by omega)]
    · rw [e] at hneg
      exact absurd hneg (not_lt.mpr hnn)

theorem hexDigit_mem_macAlphabet (n : Nat) (h : n < 16) : hexDigit n ∈ macAlphabet := by
  interval_cases n <;> decide

theorem hexDigit_injective {m n : Nat} (hm : m < 16) (hn : n < 16)
    (h : hexDigit m = hexDigit n) : m = n := by
  have e := congrArg upperHexValue h
  rw [upperHexValue_hexDigit m hm, upperHexValue_hexDigit n hn] at e
  exact Option.some.inj e

theorem byte_eq_of_digits {b c : Byte} (h1 : hexDigit (b.val / 16) = hexDigit (c.val / 16))
    (h2 : hexDigit (b.val % 16) = hexDigit (c.val % 16)) : b = c := by
  have hb := b.isLt
  have hc := c.isLt
  have e1 := hexDigit_injective (by omega) (by omega) h1
  have e2 := hexDigit_injective (by omega) (by omega) h2
  exact Fin.ext (by omega)

/-- The displayed address determines the six address bytes. -/
theorem macString_injective {b2 b3 b4 b5 b6 b7 c2 c3 c4 c5 c6 c7 : Byte}
    (h : macString b2 b3 b4 b5 b6 b7 = macString c2 c3 c4 c5 c6 c7) :
    b2 = c2 ∧ b3 = c3 ∧ b4 = c4 ∧ b5 = c5 ∧ b6 = c6 ∧ b7 = c7 := by
  have hd := congrArg String.data h
  simp only [macString, List.cons.injEq, and_true, true_and] at hd
  obtain ⟨h7a, h7b, h6a, h6b, h5a, h5b, h4a, h4b, h3a, h3b, h2a, h2b⟩ := hd
  exact ⟨byte_eq_of_digits h2a h2b, byte_eq_of_digits h3a h3b, byte_eq_of_digits h4a h4b,
    byte_eq_of_digits h5a h5b, byte_eq_of_digits h6a h6b, byte_eq_of_digits h7a h7b⟩

/-- Every character of a displayed address is a digit, a letter `A`..`F` or a colon. -/
theorem macString_alphabet (b2 b3 b4 b5 b6 b7 : Byte) :
    ∀ c ∈ (macString b2 b3 b4 b5 b6 b7).data, c ∈ macAlphabet := by
  have hd : ∀ b : Byte, hexDigit (b.val / 16) ∈ macAlphabet ∧
      hexDigit (b.val % 16) ∈ macAlphabet := by
    intro b
    have hb := b.isLt
    exact ⟨hexDigit_mem_macAlphabet _ (by omega), hexDigit_mem_macAlphabet _ (by omega)⟩
  have hcolon : ':' ∈ macAlphabet := by decide
  intro c hc
  simp only [macString, List.mem_cons, List.mem_singleton, List.not_mem_nil, or_false] at hc
  rcases hc with h | h | h | h | h | h | h | h | h | h | h | h | h | h | h | h | h <;>
    subst h <;> first | exact hcolon | exact (hd _).1 | exact (hd _).2

theorem macAlphabet_not_lower : ∀ c ∈ macAlphabet, c.isLower = false := by decide

theorem utf8ByteSize_go_ascii (cs : List Char) (h : ∀ c ∈ cs, c.val ≤ 127) :
    String.utf8ByteSize.go cs = cs.length := by
  induction cs with
  | nil => rfl
  | cons c cs ih =>
    have hc : c.val ≤ 127 := h c (List.mem_cons_self _ _)
    have hsize : c.utf8Size = 1 := by
      unfold Char.utf8Size
      exact if_pos hc
    rw [String.utf8ByteSize.go, ih (fun d hd => h d (List.mem_cons_of_mem _ hd)), hsize,
      List.length_cons]

/-- On a string of ASCII characters Go's `len` is the number of characters. -/
theorem goLen_ascii (s : String) (h : ∀ c ∈ s.data, c.val ≤ 127) : goLen s = s.length := by
  cases s with
  | mk cs => exact utf8ByteSize_go_ascii cs h


/-! ## The claims -/

/-- C1: for every 18-byte payload, `parseWS02Data` returns a `MacAddress` made of the bytes at
offsets 7, 6, 5, 4, 3, 2 in that order, each as two upper-case hexadecimal digits (high digit
first), separated by single colons and with no colon at the end, so that it has 17 characters;
the wire bytes `AA BB CC DD EE FF` at offset 2 give `FF:EE:DD:CC:BB:AA`. -/
theorem parseWS02Data_macAddress (g : Globals) (p : List Byte) (rssi : Int)
    (h : p.length = 18) :
    ∃ sd, parseWS02Data g p rssi = some sd ∧
      sd.MacAddress.data =
        [hexDigit (p[7].val / 16), hexDigit (p[7].val % 16), ':',
         hexDigit (p[6].val / 16), hexDigit (p[6].val % 16), ':',
         hexDigit (p[5].val / 16), hexDigit (p[5].val % 16), ':',
         hexDigit (p[4].val / 16), hexDigit (p[4].val % 16), ':',
         hexDigit (p[3].val / 16), hexDigit (p[3].val % 16), ':',
         hexDigit (p[2].val / 16), hexDigit (p[2].val % 16)] ∧
      (∀ b : Byte, upperHexValue (hexDigit (b.val / 16)) = some (b.val / 16) ∧
        upperHexValue (hexDigit (b.val % 16)) = some (b.val % 16) ∧
        16 * (b.val / 16) + b.val % 16 = b.val) ∧
      sd.MacAddress.length = 17 ∧
      ((p.drop 2).take 6 = [0xAA, 0xBB, 0xCC, 0xDD, 0xEE, 0xFF] →
        sd.MacAddress = "FF:EE:DD:CC:BB:AA") := by
  obtain ⟨b0, b1, b2, b3, b4, b5, b6, b7, b8, b9, b10, b11, b12, b13, b14, b15, b16, b17, rfl⟩ :=
    payload18 p h
  refine ⟨_, parseWS02Data_eval g rssi _ _ _ _ _ _ _ _ _ _ _ _ _ _ _ _ _ _, rfl, ?_, rfl, ?_⟩
  · intro b
    have hb := b.isLt
    exact ⟨upperHexValue_hexDigit _ (by omega), upperHexValue_hexDigit _ (by omega), by omega⟩
  · intro hx
    simp only [List.drop_succ_cons, List.drop_zero, List.take_succ_cons, List.take_zero,
      List.cons.injEq, and_true] at hx
    obtain ⟨rfl, rfl, rfl, rfl, rfl, rfl⟩ := hx
    rfl

/-- The wire bytes `AA BB CC DD EE FF` of `wirePayload` are displayed as `FF:EE:DD:CC:BB:AA`. -/
theorem parseWS02Data_macAddress_witness :
    ∃ sd, parseWS02Data exampleGlobals wirePayload (-60) = some sd ∧
      sd.MacAddress = "FF:EE:DD:CC:BB:AA" ∧ sd.MacAddress.length = 17 := by
  obtain ⟨sd, h1, -, -, h3, h4⟩ :=
    parseWS02Data_macAddress exampleGlobals wirePayload (-60) (by decide)
  exact ⟨sd, h1, h4 (by decide), h3⟩

/-- C2: for every 18-byte payload, the 16-bit fields are read little-endian at offsets 10 and
12, and when the applicable calibration offset is zero (of either sign) the value before
rounding is `r/16` if `r/16 ≤ 4000` and `r/16 - 4096` if `r/16 > 4000`; `r = 64000` gives 4000
and `r = 64016` gives -95. -/
theorem parseWS02Data_signCorrection (g : Globals) (p : List Byte) (rssi : Int)
    (h : p.length = 18) :
    ∃ l sd, parseLocals g p = some l ∧ parseWS02Data g p rssi = some sd ∧
      sd.Temperature = F64.divTen (F64.mathRound (F64.mulTen l.temperature)) ∧
      sd.Humidity = F64.divTen (F64.mathRound (F64.mulTen l.humidity)) ∧
      l.temperatureInt = p[10].val + 256 * p[11].val ∧
      l.humidityInt = p[12].val + 256 * p[13].val ∧
      (l.tempCal = F64.fin 0 ∨ l.tempCal = F64.negZero →
        ((l.temperatureInt : ℚ) / 16 ≤ 4000 →
          l.temperature = F64.fin ((l.temperatureInt : ℚ) / 16)) ∧
        ((l.temperatureInt : ℚ) / 16 > 4000 →
          l.temperature = F64.fin ((l.temperatureInt : ℚ) / 16 - 4096)) ∧
        (l.temperatureInt = 64000 → l.temperature = F64.fin 4000) ∧
        (l.temperatureInt = 64016 → l.temperature = F64.fin (-95))) ∧
      (l.humCal = F64.fin 0 ∨ l.humCal = F64.negZero →
        ((l.humidityInt : ℚ) / 16 ≤ 4000 → l.humidity = F64.fin ((l.humidityInt : ℚ) / 16)) ∧
        ((l.humidityInt : ℚ) / 16 > 4000 →
          l.humidity = F64.fin ((l.humidityInt : ℚ) / 16 - 4096)) ∧
        (l.humidityInt = 64000 → l.humidity = F64.fin 4000) ∧
        (l.humidityInt = 64016 → l.humidity = F64.fin (-95))) := by
  obtain ⟨b0, b1, b2, b3, b4, b5, b6, b7, b8, b9, b10, b11, b12, b13, b14, b15, b16, b17, rfl⟩ :=
    payload18 p h
  have key : ∀ (r : Nat) (z : F64), r < 65536 → (z = F64.fin 0 ∨ z = F64.negZero) →
      ((r : ℚ) / 16 ≤ 4000 → F64.add (F64.fin (signCorrect r)) z = F64.fin ((r : ℚ) / 16)) ∧
      ((r : ℚ) / 16 > 4000 →
        F64.add (F64.fin (signCorrect r)) z = F64.fin ((r : ℚ) / 16 - 4096)) ∧
      (r = 64000 → F64.add (F64.fin (signCorrect r)) z = F64.fin 4000) ∧
      (r = 64016 → F64.add (F64.fin (signCorrect r)) z = F64.fin (-95)) := by
    intro r z hr hz
    have hadd : F64.add (F64.fin (signCorrect r)) z = F64.fin (signCorrect r) := by
      rcases hz with hz | hz
      · rw [hz]; exact (add_signCorrect_zero r hr).1
      · rw [hz]; exact (add_signCorrect_zero r hr).2
    rw [hadd]
    refine ⟨fun hle => ?_, fun hgt => ?_, fun h1 => ?_, fun h1 => ?_⟩
    · simp [signCorrect, not_lt.mpr hle]
    · simp [signCorrect, hgt]
    · subst h1; rw [signCorrect_of_le (by norm_num)]; norm_num
    · subst h1; rw [signCorrect_of_gt (by norm_num)]; norm_num
  have ht : b10.val + 256 * b11.val < 65536 := by
    have := b10.isLt; have := b11.isLt; omega
  have hh : b12.val + 256 * b13.val < 65536 := by
    have := b12.isLt; have := b13.isLt; omega
  refine ⟨_, _, parseLocals_eval g _ _ _ _ _ _ _ _ _ _ _ _ _ _ _ _ _ _,
    parseWS02Data_eval g rssi _ _ _ _ _ _ _ _ _ _ _ _ _ _ _ _ _ _, rfl, rfl, rfl, rfl, ?_, ?_⟩
  · intro hc
    exact key _ _ ht hc
  · intro hc
    exact key _ _ hh hc

/-- The fields 64000 and 64016 of `wirePayload`, with no applicable offset, decode to 4000 and
-95. -/
theorem parseWS02Data_signCorrection_witness :
    ∃ l, parseLocals exampleGlobals wirePayload = some l ∧
      l.temperatureInt = 64000 ∧ l.temperature = F64.fin 4000 ∧
      l.humidityInt = 64016 ∧ l.humidity = F64.fin (-95) := by
  obtain ⟨l, sd, hl, -, -, -, -, -, ht, hh⟩ :=
    parseWS02Data_signCorrection exampleGlobals wirePayload 0 (by decide)
  have e := hl
  rw [parseLocals_wirePayload] at e
  injection e with e
  subst e
  exact ⟨_, hl, rfl, (ht (Or.inl rfl)).2.2.1 rfl, rfl, (hh (Or.inl rfl)).2.2.2 rfl⟩

/-- C3 (counterexample): on the payload of the end-to-end example, with the Inside address
`AA:BB:CC:DD:EE:FF` and zero calibration, the uptime bytes `00 00 00 3C` are read
little-endian, so the returned `Uptime` is 1006632960 and not 60, and its text is not
`0d 0h 1m`. -/
theorem endToEnd_uptime_counterexample :
    ¬ ∃ sd, parseWS02Data endToEndGlobals endToEndPayload 0 = some sd ∧
      sd.Name = "Inside" ∧ sd.Temperature = F64.fin 16 ∧ sd.Humidity = F64.fin 16 ∧
      sd.BatLevel = 100 ∧
      sd.Uptime = 60 ∧ formatUptime sd.Uptime = "0d 0h 1m" := by
  rintro ⟨sd, hsd, -, -, -, -, hu, -⟩
  rw [endToEndPayload, endToEndPayload_eval endToEndGlobals 0 0 0 rfl rfl rfl] at hsd
  injection hsd with hsd
  subst hsd
  exact absurd hu (by decide)

/-- C3 (amended): for every 18-byte payload whose bytes at offsets 2..17 are those of the
end-to-end example, with the Inside address `AA:BB:CC:DD:EE:FF` and zero Inside offsets,
`parseWS02Data` returns Name `Inside`, Temperature 16, Humidity 16, BatLevel 100 and Uptime
1006632960 (the bytes `00 00 00 3C` read little-endian), whose text is `11650d 20h 16m`. -/
theorem parseWS02Data_endToEnd (g : Globals) (p : List Byte) (rssi : Int)
    (h : p.length = 18)
    (hp : p.drop 2 = [0xFF, 0xEE, 0xDD, 0xCC, 0xBB, 0xAA, 0x64, 0x00, 0x00, 0x01, 0x00, 0x01,
      0x00, 0x00, 0x00, 0x3C])
    (hi : g.insideSensor = "AA:BB:CC:DD:EE:FF") (ht : g.insideTempCal = F64.fin 0)
    (hh : g.insideHumCal = F64.fin 0) :
    ∃ sd, parseWS02Data g p rssi = some sd ∧
      sd.Name = "Inside" ∧ sd.Temperature = F64.fin 16 ∧ sd.Humidity = F64.fin 16 ∧
      sd.BatLevel = 100 ∧
      sd.Uptime = 1006632960 ∧ formatUptime sd.Uptime = "11650d 20h 16m" := by
  obtain ⟨b0, b1, b2, b3, b4, b5, b6, b7, b8, b9, b10, b11, b12, b13, b14, b15, b16, b17, rfl⟩ :=
    payload18 p h
  simp only [List.drop_succ_cons, List.drop_zero, List.cons.injEq, and_true] at hp
  obtain ⟨rfl, rfl, rfl, rfl, rfl, rfl, rfl, rfl, rfl, rfl, rfl, rfl, rfl, rfl, rfl, rfl⟩ := hp
  have hf : formatUptime 1006632960 = "11650d 20h 16m" := by decide
  exact ⟨_, endToEndPayload_eval g b0 b1 rssi hi ht hh, rfl, rfl, rfl, rfl, rfl, hf⟩

/-- The end-to-end payload under the end-to-end calibration store. -/
theorem parseWS02Data_endToEnd_witness :
    ∃ sd, parseWS02Data endToEndGlobals endToEndPayload (-48) = some sd ∧
      sd.Name = "Inside" ∧ sd.Temperature = F64.fin 16 ∧ sd.Humidity = F64.fin 16 ∧
      sd.BatLevel = 100 ∧
      sd.Uptime = 1006632960 ∧ formatUptime sd.Uptime = "11650d 20h 16m" :=
  parseWS02Data_endToEnd endToEndGlobals endToEndPayload (-48) (by decide) (by decide)
    rfl rfl rfl

/-- C4: for every 18-byte payload `p` and every `rssi`, `parseWS02Data` returns
`BatLevel = p[8] + 256*p[9]`, `Uptime = p[14] + 2^8*p[15] + 2^16*p[16] + 2^24*p[17]` and
`RSSI = rssi`; the two decoded values fit their 16 and 32 bits and are the same under every
calibration store. -/
theorem parseWS02Data_battery_uptime_rssi (g : Globals) (p : List Byte) (rssi : Int)
    (h : p.length = 18) :
    ∃ sd, parseWS02Data g p rssi = some sd ∧
      sd.BatLevel = p[8].val + 256 * p[9].val ∧
      sd.Uptime = p[14].val + 2 ^ 8 * p[15].val + 2 ^ 16 * p[16].val + 2 ^ 24 * p[17].val ∧
      sd.RSSI = rssi ∧
      sd.BatLevel < 2 ^ 16 ∧ sd.Uptime < 2 ^ 32 ∧
      (∀ g' : Globals, ∃ sd', parseWS02Data g' p rssi = some sd' ∧
        sd'.BatLevel = sd.BatLevel ∧ sd'.Uptime = sd.Uptime ∧ sd'.RSSI = sd.RSSI) := by
  obtain ⟨b0, b1, b2, b3, b4, b5, b6, b7, b8, b9, b10, b11, b12, b13, b14, b15, b16, b17, rfl⟩ :=
    payload18 p h
  refine ⟨_, parseWS02Data_eval g rssi _ _ _ _ _ _ _ _ _ _ _ _ _ _ _ _ _ _, rfl, rfl, rfl,
    ?_, ?_, fun g' => ⟨_, parseWS02Data_eval g' rssi _ _ _ _ _ _ _ _ _ _ _ _ _ _ _ _ _ _,
      rfl, rfl, rfl⟩⟩
  · have h8 := b8.isLt
    have h9 := b9.isLt
    simp only
    omega
  · have h14 := b14.isLt
    have h15 := b15.isLt
    have h16 := b16.isLt
    have h17 := b17.isLt
    simp only
    omega

/-- The battery bytes `64 00` and uptime bytes `CD 5F 01 00` of `insidePayload` decode to 100 and 90061. -/
theorem parseWS02Data_battery_uptime_rssi_witness :
    ∃ sd, parseWS02Data exampleGlobals insidePayload (-71) = some sd ∧
      sd.BatLevel = 100 ∧ sd.Uptime = 90061 ∧ sd.RSSI = -71 := by
  obtain ⟨sd, h1, h2, h3, h4, -⟩ :=
    parseWS02Data_battery_uptime_rssi exampleGlobals insidePayload (-71) (by decide)
  exact ⟨sd, h1, h2, h3, h4⟩

/-- C5 (counterexample): under `roundingGlobals` the payload `roundingPayload` has the exact
sums `x = 0 + 0.15` and `x = 20.25 + 0.3` (the offsets being the float64 values of 0.15 and
0.3). The returned Temperature is the float64 value 0.2 and the returned Humidity the float64
value 20.6: neither is `round(10x)/10` (0.1 and 20.5), both are farther than 0.05 from `x`,
and ten times the Temperature is not an integer. -/
theorem rounding_exact_counterexample :
    ∃ l sd, parseLocals roundingGlobals roundingPayload = some l ∧
      parseWS02Data roundingGlobals roundingPayload 0 = some sd ∧
      l.temperatureInt = 0 ∧ l.tempCal = F64.fin (5404319552844595 / 36028797018963968) ∧
      l.humidityInt = 324 ∧ l.humCal = F64.fin (5404319552844595 / 18014398509481984) ∧
      sd.Temperature = F64.fin (3602879701896397 / 18014398509481984) ∧
      sd.Humidity = F64.fin (2899192260119757 / 140737488355328) ∧
      (3602879701896397 / 18014398509481984 : ℚ)
        ≠ (roundHalfAwayFromZero
            (10 * (signCorrect 0 + 5404319552844595 / 36028797018963968)) : ℚ) / 10 ∧
      (1 / 20 : ℚ) < |3602879701896397 / 18014398509481984
        - (signCorrect 0 + 5404319552844595 / 36028797018963968)| ∧
      (¬ ∃ k : ℤ, (10 : ℚ) * (3602879701896397 / 18014398509481984) = k) ∧
      (2899192260119757 / 140737488355328 : ℚ)
        ≠ (roundHalfAwayFromZero
            (10 * (signCorrect 324 + 5404319552844595 / 18014398509481984)) : ℚ) / 10 ∧
      (1 / 20 : ℚ) < |2899192260119757 / 140737488355328
        - (signCorrect 324 + 5404319552844595 / 18014398509481984)| := by
  have s0 : signCorrect 0 = 0 := by rw [signCorrect_of_le (by norm_num)]; norm_num
  have s324 : signCorrect 324 = 81 / 4 := by rw [signCorrect_of_le (by norm_num)]; norm_num
  obtain ⟨v1, v2, v3, v4⟩ := roundingPayload_values
  have hsd : parseWS02Data roundingGlobals roundingPayload 0 = some
      { MacAddress := "AA:BB:CC:DD:EE:FF", Name := "Inside", BatLevel := 100, RSSI := 0,
        Uptime := 60, Temperature := F64.fin (3602879701896397 / 18014398509481984),
        Humidity := F64.fin (2899192260119757 / 140737488355328) } := by
    simp only [parseWS02Data, parseLocals_roundingPayload, Option.map_some', v1, v3]
    rw [← roundTenth, ← roundTenth, v2, v4]
  have r1 : roundHalfAwayFromZero
      (10 * (signCorrect 0 + 5404319552844595 / 36028797018963968)) = 1 :=
    roundHalfAwayFromZero_eq_of_mathRound
      (mathRound_eq_of_abs_lt (by rw [s0]; norm_num [abs_lt]))
  have r2 : roundHalfAwayFromZero
      (10 * (signCorrect 324 + 5404319552844595 / 18014398509481984)) = 205 :=
    roundHalfAwayFromZero_eq_of_mathRound
      (mathRound_eq_of_abs_lt (by rw [s324]; norm_num [abs_lt]))
  refine ⟨_, _, parseLocals_roundingPayload, hsd, rfl, rfl, rfl, rfl, rfl, rfl, ?_, ?_, ?_,
    ?_, ?_⟩
  · rw [r1]; norm_num
  · rw [s0, lt_abs]; left; norm_num
  · rintro ⟨k, hk⟩
    have h2 : ((2 : ℤ) : ℚ) < (k : ℚ) := by rw [← hk]; norm_num
    have h3 : (k : ℚ) < ((3 : ℤ) : ℚ) := by rw [← hk]; norm_num
    have h2' : (2 : ℤ) < k := by exact_mod_cast h2
    have h3' : k < (3 : ℤ) := by exact_mod_cast h3
    omega
  · rw [r2]; norm_num
  · rw [s324, lt_abs]; left; norm_num

/-- C5 (amended): for every 18-byte payload and every calibration store, the value before
rounding is the float64 sum `x` of the sign-corrected field and the applicable offset, and the
returned Temperature and Humidity are `math.Round(x*10)/10` in float64. With `y` the float64
product `x*10`, the result is the float64 nearest to `k/10`, where the integer `k` is `y`
rounded half away from zero (within 1/2 of `y`, a tie of `y` going away from zero); for a finite
`x` of magnitude at most `2^1000` the result is within `0.05 + (|x| + 1)/2^50` of `x`; the
float64 sums nearest to 23.449999 and 23.45 give the float64 values nearest to 23.4 and 23.5;
and when the applicable offset is zero the result is the float64 nearest to `round(10*x)/10`
of the exact sign-corrected value `x`. -/
theorem parseWS02Data_rounding (g : Globals) (p : List Byte) (rssi : Int)
    (h : p.length = 18) :
    ∃ l sd, parseLocals g p = some l ∧ parseWS02Data g p rssi = some sd ∧
      l.tempCal = (if l.macAdr = g.insideSensor then g.insideTempCal
        else if l.macAdr = g.outsideSensor then g.outsideTempCal else F64.fin 0) ∧
      l.humCal = (if l.macAdr = g.insideSensor then g.insideHumCal
        else if l.macAdr = g.outsideSensor then g.outsideHumCal else F64.fin 0) ∧
      l.temperature = F64.add (F64.fin (signCorrect l.temperatureInt)) l.tempCal ∧
      l.humidity = F64.add (F64.fin (signCorrect l.humidityInt)) l.humCal ∧
      (sd.Temperature = F64.divTen (F64.mathRound (F64.mulTen l.temperature)) ∧
        (∀ y : ℚ, F64.mulTen l.temperature = F64.fin y →
          |(roundHalfAwayFromZero y : ℚ) - y| ≤ 1 / 2 ∧
          (roundHalfAwayFromZero y ≠ 0 →
            sd.Temperature = F64.ofRat ((roundHalfAwayFromZero y : ℚ) / 10)) ∧
          (roundHalfAwayFromZero y = 0 →
            sd.Temperature = F64.fin 0 ∨ sd.Temperature = F64.negZero)) ∧
        (∀ k : ℤ, 0 ≤ k → F64.mulTen l.temperature = F64.fin ((k : ℚ) + 1 / 2) →
          sd.Temperature = F64.ofRat (((k + 1 : ℤ) : ℚ) / 10)) ∧
        (∀ k : ℤ, 0 ≤ k → F64.mulTen l.temperature = F64.fin (-((k : ℚ) + 1 / 2)) →
          sd.Temperature = F64.ofRat (((-(k + 1) : ℤ) : ℚ) / 10)) ∧
        (∀ a : ℚ, l.temperature = F64.fin a → |a| ≤ 2 ^ 1000 →
          ∃ t : ℚ, (sd.Temperature = F64.fin t ∨ (sd.Temperature = F64.negZero ∧ t = 0)) ∧
            |t - a| ≤ 1 / 20 + (|a| + 1) / 2 ^ 50) ∧
        (l.temperature = F64.ofRat (23449999 / 1000000) →
          sd.Temperature = F64.ofRat (234 / 10)) ∧
        (l.temperature = F64.ofRat (2345 / 100) → sd.Temperature = F64.ofRat (235 / 10))) ∧
      (sd.Humidity = F64.divTen (F64.mathRound (F64.mulTen l.humidity)) ∧
        (∀ y : ℚ, F64.mulTen l.humidity = F64.fin y →
          |(roundHalfAwayFromZero y : ℚ) - y| ≤ 1 / 2 ∧
          (roundHalfAwayFromZero y ≠ 0 →
            sd.Humidity = F64.ofRat ((roundHalfAwayFromZero y : ℚ) / 10)) ∧
          (roundHalfAwayFromZero y = 0 →
            sd.Humidity = F64.fin 0 ∨ sd.Humidity = F64.negZero)) ∧
        (∀ k : ℤ, 0 ≤ k → F64.mulTen l.humidity = F64.fin ((k : ℚ) + 1 / 2) →
          sd.Humidity = F64.ofRat (((k + 1 : ℤ) : ℚ) / 10)) ∧
        (∀ k : ℤ, 0 ≤ k → F64.mulTen l.humidity = F64.fin (-((k : ℚ) + 1 / 2)) →
          sd.Humidity = F64.ofRat (((-(k + 1) : ℤ) : ℚ) / 10)) ∧
        (∀ a : ℚ, l.humidity = F64.fin a → |a| ≤ 2 ^ 1000 →
          ∃ t : ℚ, (sd.Humidity = F64.fin t ∨ (sd.Humidity = F64.negZero ∧ t = 0)) ∧
            |t - a| ≤ 1 / 20 + (|a| + 1) / 2 ^ 50) ∧
        (l.humidity = F64.ofRat (23449999 / 1000000) → sd.Humidity = F64.ofRat (234 / 10)) ∧
        (l.humidity = F64.ofRat (2345 / 100) → sd.Humidity = F64.ofRat (235 / 10))) ∧
      (l.tempCal = F64.fin 0 ∨ l.tempCal = F64.negZero →
        sd.Temperature = F64.ofRat
          ((roundHalfAwayFromZero (10 * signCorrect l.temperatureInt) : ℚ) / 10)) ∧
      (l.humCal = F64.fin 0 ∨ l.humCal = F64.negZero →
        sd.Humidity = F64.ofRat
          ((roundHalfAwayFromZero (10 * signCorrect l.humidityInt) : ℚ) / 10)) := by
  obtain ⟨b0, b1, b2, b3, b4, b5, b6, b7, b8, b9, b10, b11, b12, b13, b14, b15, b16, b17, rfl⟩ :=
    payload18 p h
  have ht : b10.val + 256 * b11.val < 65536 := by
    have := b10.isLt; have := b11.isLt; omega
  have hh : b12.val + 256 * b13.val < 65536 := by
    have := b12.isLt; have := b13.isLt; omega
  have key : ∀ (r : Nat) (z : F64), r < 65536 → (z = F64.fin 0 ∨ z = F64.negZero) →
      F64.divTen (F64.mathRound (F64.mulTen (F64.add (F64.fin (signCorrect r)) z)))
        = F64.ofRat ((roundHalfAwayFromZero (10 * signCorrect r) : ℚ) / 10) := by
    intro r z hr hz
    have hadd : F64.add (F64.fin (signCorrect r)) z = F64.fin (signCorrect r) := by
      rcases hz with hz | hz
      · rw [hz]; exact (add_signCorrect_zero r hr).1
      · rw [hz]; exact (add_signCorrect_zero r hr).2
    rw [hadd]
    exact roundTenth_signCorrect r hr
  refine ⟨_, _, parseLocals_eval g _ _ _ _ _ _ _ _ _ _ _ _ _ _ _ _ _ _,
    parseWS02Data_eval g rssi _ _ _ _ _ _ _ _ _ _ _ _ _ _ _ _ _ _, rfl, rfl, rfl, rfl,
    roundTenth_spec _, roundTenth_spec _, ?_, ?_⟩
  · intro hc
    exact key _ _ ht hc
  · intro hc
    exact key _ _ hh hc

/-- Under `roundingGlobals` the payload `roundingPayload` has the float64 sums 0.15 and 20.55
and the float64 results 0.2 and 20.6, each within the stated distance of its sum. -/
theorem parseWS02Data_rounding_witness :
    ∃ l sd, parseLocals roundingGlobals roundingPayload = some l ∧
      parseWS02Data roundingGlobals roundingPayload 0 = some sd ∧
      l.temperature = F64.fin (5404319552844595 / 36028797018963968) ∧
      sd.Temperature = F64.fin (3602879701896397 / 18014398509481984) ∧
      l.humidity = F64.fin (5784310771403981 / 281474976710656) ∧
      sd.Humidity = F64.fin (2899192260119757 / 140737488355328) ∧
      (∃ t : ℚ, (sd.Temperature = F64.fin t ∨ (sd.Temperature = F64.negZero ∧ t = 0)) ∧
        |t - 5404319552844595 / 36028797018963968|
          ≤ 1 / 20 + (|(5404319552844595 / 36028797018963968 : ℚ)| + 1) / 2 ^ 50) := by
  obtain ⟨l, sd, hl, hsd, -, -, -, -, ht, hh, -, -⟩ :=
    parseWS02Data_rounding roundingGlobals roundingPayload 0 (by decide)
  obtain ⟨v1, v2, v3, v4⟩ := roundingPayload_values
  have e := hl
  rw [parseLocals_roundingPayload] at e
  injection e with e
  subst e
  have hT := ht.1
  have hH := hh.1
  simp only [v1, v3] at hT hH
  rw [← roundTenth, v2] at hT
  rw [← roundTenth, v4] at hH
  have hb : |(5404319552844595 / 36028797018963968 : ℚ)| ≤ 2 ^ 1000 := by
    rw [abs_of_pos (by norm_num)]
    have : (1 : ℚ) ≤ 2 ^ 1000 := one_le_pow₀ (by norm_num)
    have : (5404319552844595 / 36028797018963968 : ℚ) ≤ 1 := by norm_num
    linarith
  exact ⟨_, sd, hl, hsd, v1, hT, v3, hH, ht.2.2.2.2.1 _ v1 hb⟩

/-- C6: for every seconds value `s` (in particular every `uint32`), `formatUptime s` is the text `<d>d <h>h <m>m` where
`d = s / 86400`, `h = (s % 86400) / 3600`, `m = (s % 3600) / 60` are printed in decimal; the
remaining seconds are dropped, never rounded up; `formatUptime 0` is `0d 0h 0m` and
`formatUptime 90061` is `1d 1h 1m`. -/
theorem formatUptime_spec (s : Nat) :
    formatUptime s = fmtDecimal (s / 86400) ++ "d " ++ fmtDecimal (s % 86400 / 3600) ++ "h "
      ++ fmtDecimal (s % 3600 / 60) ++ "m" ∧
    (∀ n : Nat, decimalValue (fmtDecimal n) = n) ∧
    86400 * (s / 86400) + 3600 * (s % 86400 / 3600) + 60 * (s % 3600 / 60) ≤ s ∧
    60 * (s % 3600 / 60) ≤ s % 3600 ∧
    formatUptime 0 = "0d 0h 0m" ∧ formatUptime 90061 = "1d 1h 1m" ∧
    formatUptime 59 = "0d 0h 0m" ∧ formatUptime 119 = "0d 0h 1m" := by
  refine ⟨rfl, decimalValue_fmtDecimal, by omega, by omega, by decide, by decide, by decide,
    by decide⟩

/-- C7: for every 18-byte payload and every pair of configured addresses, the returned Name is
empty exactly when the decoded MacAddress is neither the Inside nor the Outside address, and
otherwise it is `Inside` or `Outside`. -/
theorem parseWS02Data_name_empty_iff (g : Globals) (p : List Byte) (rssi : Int)
    (h : p.length = 18) :
    ∃ sd, parseWS02Data g p rssi = some sd ∧
      (sd.Name = "" ↔ sd.MacAddress ≠ g.insideSensor ∧ sd.MacAddress ≠ g.outsideSensor) ∧
      (sd.Name ≠ "" → sd.Name = "Inside" ∨ sd.Name = "Outside") := by
  obtain ⟨b0, b1, b2, b3, b4, b5, b6, b7, b8, b9, b10, b11, b12, b13, b14, b15, b16, b17, rfl⟩ :=
    payload18 p h
  refine ⟨_, parseWS02Data_eval g rssi _ _ _ _ _ _ _ _ _ _ _ _ _ _ _ _ _ _, ?_, ?_⟩
  · simp only
    have hI : ("Inside" : String) ≠ "" := by decide
    have hO : ("Outside" : String) ≠ "" := by decide
    split_ifs with h1 h2
    · simp [hI, h1]
    · simp [hO, h1, h2]
    · simp [h1, h2]
  · simp only
    split_ifs with h1 h2
    · exact fun _ => Or.inl rfl
    · exact fun _ => Or.inr rfl
    · exact fun hne => absurd rfl hne

/-- The three possible names occur under `exampleGlobals`. -/
theorem parseWS02Data_name_empty_iff_witness :
    (∃ sd, parseWS02Data exampleGlobals zeroAddressPayload (-71) = some sd ∧ sd.Name = "") ∧
    (∃ sd, parseWS02Data exampleGlobals insidePayload (-71) = some sd ∧ sd.Name = "Inside") ∧
    (∃ sd, parseWS02Data exampleGlobals outsidePayload (-71) = some sd ∧
      sd.Name = "Outside") := by
  refine ⟨?_, ?_, ?_⟩
  · obtain ⟨sd, hsd, hiff, -⟩ :=
      parseWS02Data_name_empty_iff exampleGlobals zeroAddressPayload (-71) (by decide)
    have e := hsd
    rw [parseWS02Data_zeroAddressPayload] at e
    injection e with e
    subst e
    exact ⟨_, hsd, hiff.mpr ⟨by decide, by decide⟩⟩
  · exact ⟨_, parseWS02Data_insidePayload, rfl⟩
  · exact ⟨_, parseWS02Data_outsidePayload, rfl⟩

/-- C9: when the configured Inside and Outside addresses are identical and an 18-byte payload
decodes to that address, `parseWS02Data` returns Name `Inside` and adds the Inside temperature
and humidity offsets (the result is `math.Round(x*10)/10` of the float64 sum `x` of the
sign-corrected field and the Inside offset), whatever the Outside offsets are. -/
theorem parseWS02Data_inside_wins (g : Globals) (p : List Byte) (rssi : Int)
    (h : p.length = 18) (hsame : g.insideSensor = g.outsideSensor) :
    ∃ sd, parseWS02Data g p rssi = some sd ∧
      (sd.MacAddress = g.outsideSensor →
        sd.Name = "Inside" ∧
        sd.Temperature = F64.divTen (F64.mathRound (F64.mulTen
          (F64.add (F64.fin (signCorrect (p[10].val + 256 * p[11].val))) g.insideTempCal))) ∧
        sd.Humidity = F64.divTen (F64.mathRound (F64.mulTen
          (F64.add (F64.fin (signCorrect (p[12].val + 256 * p[13].val))) g.insideHumCal))) ∧
        ∀ t u : F64,
          parseWS02Data { g with outsideTempCal := t, outsideHumCal := u } p rssi
            = some sd) := by
  obtain ⟨b0, b1, b2, b3, b4, b5, b6, b7, b8, b9, b10, b11, b12, b13, b14, b15, b16, b17, rfl⟩ :=
    payload18 p h
  refine ⟨_, parseWS02Data_eval g rssi _ _ _ _ _ _ _ _ _ _ _ _ _ _ _ _ _ _, ?_⟩
  intro ho
  simp only at ho
  have hi : macString b2 b3 b4 b5 b6 b7 = g.insideSensor := ho.trans hsame.symm
  refine ⟨by simp only [if_pos hi],
    by simp only [if_pos hi, roundTenth, List.getElem_cons_succ, List.getElem_cons_zero],
    by simp only [if_pos hi, roundTenth, List.getElem_cons_succ, List.getElem_cons_zero], ?_⟩
  intro t u
  rw [parseWS02Data_eval]
  simp only [if_pos hi]

/-- Under `duplicateGlobals` the payload resolves to Inside with the Inside offsets 0.5 and -2,
and under `duplicateRoundingGlobals` with the Inside offsets 0.15 and 0.3, which bring the
fields 0 and 20.25 to the float64 results 0.2 and 20.6. -/
theorem parseWS02Data_inside_wins_witness :
    (∃ sd, parseWS02Data duplicateGlobals insidePayload (-71) = some sd ∧
      sd.MacAddress = duplicateGlobals.outsideSensor ∧
      sd.Name = "Inside" ∧ sd.Temperature = F64.fin (235 / 10) ∧
      sd.Humidity = F64.fin (-97)) ∧
    (∃ sd, parseWS02Data duplicateRoundingGlobals roundingPayload (-71) = some sd ∧
      sd.MacAddress = duplicateRoundingGlobals.outsideSensor ∧
      sd.Name = "Inside" ∧
      sd.Temperature = F64.fin (3602879701896397 / 18014398509481984) ∧
      sd.Humidity = F64.fin (2899192260119757 / 140737488355328)) := by
  constructor
  · obtain ⟨sd, hsd, hin⟩ :=
      parseWS02Data_inside_wins duplicateGlobals insidePayload (-71) (by decide) rfl
    have e := hsd
    rw [parseWS02Data_duplicateGlobals] at e
    injection e with e
    subst e
    obtain ⟨hn, -, -, -⟩ := hin (by decide)
    exact ⟨_, hsd, by decide, hn, roundTenth_examples.1, roundTenth_examples.2.1⟩
  · obtain ⟨sd, hsd, hin⟩ :=
      parseWS02Data_inside_wins duplicateRoundingGlobals roundingPayload (-71) (by decide) rfl
    have e := hsd
    rw [roundingPayload, parseWS02Data_eval] at e
    injection e with e
    subst e
    obtain ⟨hn, hT, hH, -⟩ := hin (by decide)
    obtain ⟨v1, v2, v3, v4⟩ := roundingPayload_values
    refine ⟨_, hsd, by decide, hn, ?_, ?_⟩
    · rw [hT]
      have e1 : ((roundingPayload[10]).val + 256 * (roundingPayload[11]).val) = 0 := by decide
      rw [e1]
      show roundTenth (F64.add (F64.fin (signCorrect 0))
        duplicateRoundingGlobals.insideTempCal) = _
      rw [show duplicateRoundingGlobals.insideTempCal
        = F64.fin (5404319552844595 / 36028797018963968) from rfl, v1, v2]
    · rw [hH]
      have e1 : ((roundingPayload[12]).val + 256 * (roundingPayload[13]).val) = 324 := by decide
      rw [e1]
      show roundTenth (F64.add (F64.fin (signCorrect 324))
        duplicateRoundingGlobals.insideHumCal) = _
      rw [show duplicateRoundingGlobals.insideHumCal
        = F64.fin (5404319552844595 / 18014398509481984) from rfl, v3, v4]

/-- C10: for every 18-byte payload whose decoded MacAddress matches neither configured
address, `parseWS02Data` adds no offset: Temperature and Humidity are the one-decimal rounding
of the sign-corrected fields alone, and the whole result is the same under every choice of the
four configured offsets; address bytes that are all zero decode to `00:00:00:00:00:00`. -/
theorem parseWS02Data_unmatched (g : Globals) (p : List Byte) (rssi : Int)
    (h : p.length = 18) :
    ∃ sd, parseWS02Data g p rssi = some sd ∧
      ((p.drop 2).take 6 = [0, 0, 0, 0, 0, 0] → sd.MacAddress = "00:00:00:00:00:00") ∧
      (sd.MacAddress ≠ g.insideSensor → sd.MacAddress ≠ g.outsideSensor →
        sd.Name = "" ∧
        sd.Temperature = roundTenth (F64.fin (signCorrect (p[10].val + 256 * p[11].val))) ∧
        sd.Humidity = roundTenth (F64.fin (signCorrect (p[12].val + 256 * p[13].val))) ∧
        ∀ t u v w : F64,
          parseWS02Data { g with insideTempCal := t, insideHumCal := u, outsideTempCal := v,
                                 outsideHumCal := w } p rssi = some sd) := by
  obtain ⟨b0, b1, b2, b3, b4, b5, b6, b7, b8, b9, b10, b11, b12, b13, b14, b15, b16, b17, rfl⟩ :=
    payload18 p h
  refine ⟨_, parseWS02Data_eval g rssi _ _ _ _ _ _ _ _ _ _ _ _ _ _ _ _ _ _, ?_, ?_⟩
  · intro hx
    simp only [List.drop_succ_cons, List.drop_zero, List.take_succ_cons, List.take_zero,
      List.cons.injEq, and_true] at hx
    obtain ⟨rfl, rfl, rfl, rfl, rfl, rfl⟩ := hx
    rfl
  · intro hi ho
    simp only at hi ho
    have ht : b10.val + 256 * b11.val < 65536 := by
      have := b10.isLt; have := b11.isLt; omega
    have hh : b12.val + 256 * b13.val < 65536 := by
      have := b12.isLt; have := b13.isLt; omega
    refine ⟨by simp only [if_neg hi, if_neg ho],
      by simp only [if_neg hi, if_neg ho, (add_signCorrect_zero _ ht).1,
        List.getElem_cons_succ, List.getElem_cons_zero],
      by simp only [if_neg hi, if_neg ho, (add_signCorrect_zero _ hh).1,
        List.getElem_cons_succ, List.getElem_cons_zero], ?_⟩
    intro t u v w
    rw [parseWS02Data_eval]
    simp only [if_neg hi, if_neg ho]

/-- The all-zero address is unknown to `exampleGlobals` and gets no offset. -/
theorem parseWS02Data_unmatched_witness :
    ∃ sd, parseWS02Data exampleGlobals zeroAddressPayload (-71) = some sd ∧
      sd.MacAddress = "00:00:00:00:00:00" ∧ sd.Name = "" ∧
      sd.Temperature = F64.fin 23 ∧ sd.Humidity = F64.fin 50 := by
  obtain ⟨sd, hsd, hz, hun⟩ :=
    parseWS02Data_unmatched exampleGlobals zeroAddressPayload (-71) (by decide)
  have e := hsd
  rw [parseWS02Data_zeroAddressPayload] at e
  injection e with e
  subst e
  obtain ⟨hn, -, -, -⟩ := hun (by decide) (by decide)
  exact ⟨_, hsd, hz (by decide), hn, roundTenth_examples.2.2.2.2.1, roundTenth_examples.2.2.2.2.2⟩

/-- C11: `parseWS02Data` is a function of the payload, the rssi and the six calibration-store
values; for the same rssi and store, two 18-byte payloads that agree on offsets 2..17 give the
same `SensorData` (bytes 0 and 1 influence no field), and the call leaves the calibration
store as it was. -/
theorem parseWS02Data_deterministic (g : Globals) (p q : List Byte) (rssi : Int)
    (hp : p.length = 18) (hq : q.length = 18) (hagree : p.drop 2 = q.drop 2) :
    ∃ sd, parseWS02Data g p rssi = some sd ∧ parseWS02Data g q rssi = some sd ∧
      (∀ x y : Byte, parseWS02Data g (x :: y :: p.drop 2) rssi = some sd) ∧
      parseWS02DataCall g p rssi = (some sd, g) ∧
      parseWS02DataCall g q rssi = (some sd, g) := by
  obtain ⟨b0, b1, b2, b3, b4, b5, b6, b7, b8, b9, b10, b11, b12, b13, b14, b15, b16, b17, rfl⟩ :=
    payload18 p hp
  obtain ⟨c0, c1, c2, c3, c4, c5, c6, c7, c8, c9, c10, c11, c12, c13, c14, c15, c16, c17, rfl⟩ :=
    payload18 q hq
  simp only [List.drop_succ_cons, List.drop_zero, List.cons.injEq, and_true] at hagree
  obtain ⟨rfl, rfl, rfl, rfl, rfl, rfl, rfl, rfl, rfl, rfl, rfl, rfl, rfl, rfl, rfl, rfl⟩ :=
    hagree
  have e1 := parseWS02Data_eval g rssi b0 b1 b2 b3 b4 b5 b6 b7 b8 b9 b10 b11 b12 b13 b14 b15
    b16 b17
  have e2 := parseWS02Data_eval g rssi c0 c1 b2 b3 b4 b5 b6 b7 b8 b9 b10 b11 b12 b13 b14 b15
    b16 b17
  refine ⟨_, e1, e2, fun x y => ?_, ?_, ?_⟩
  · exact parseWS02Data_eval g rssi x y b2 b3 b4 b5 b6 b7 b8 b9 b10 b11 b12 b13 b14 b15 b16 b17
  · rw [parseWS02DataCall, e1]
  · rw [parseWS02DataCall, e2]

/-- The payloads `insidePayload` and `insidePayloadVariant` differ in byte 0 only and decode
to the same struct, leaving `exampleGlobals` in place. -/
theorem parseWS02Data_deterministic_witness :
    insidePayload ≠ insidePayloadVariant ∧
    ∃ sd, parseWS02Data exampleGlobals insidePayload (-71) = some sd ∧
      parseWS02Data exampleGlobals insidePayloadVariant (-71) = some sd ∧
      parseWS02DataCall exampleGlobals insidePayload (-71) = (some sd, exampleGlobals) := by
  obtain ⟨sd, h1, h2, -, h3, -⟩ := parseWS02Data_deterministic exampleGlobals insidePayload
    insidePayloadVariant (-71) (by decide) (by decide) (by decide)
  exact ⟨by decide, sd, h1, h2, h3⟩

/-- C12: for every payload of length exactly 18, each of the five slices that `parseWS02Data`
takes (offsets 2..8, 8..10, 14..18, 10..12, 12..14) is within bounds, each little-endian read
finds the bytes it indexes, and a `SensorData` is returned. -/
theorem parseWS02Data_total (g : Globals) (p : List Byte) (rssi : Int) (h : p.length = 18) :
    (∃ s, slice p macOffset (macOffset + 6) = some s ∧ s.length = 6) ∧
    (∃ s v, slice p batOffset (batOffset + 2) = some s ∧ s.length = 2 ∧
      leUint16 s = some v) ∧
    (∃ s v, slice p uptimeOffset (uptimeOffset + 4) = some s ∧ s.length = 4 ∧
      leUint32 s = some v) ∧
    (∃ s v, slice p tempOffset (tempOffset + 2) = some s ∧ s.length = 2 ∧
      leUint16 s = some v) ∧
    (∃ s v, slice p humidityOffset (humidityOffset + 2) = some s ∧ s.length = 2 ∧
      leUint16 s = some v) ∧
    (∃ l, parseLocals g p = some l) ∧
    (∃ sd, parseWS02Data g p rssi = some sd) ∧
    parseWS02Data g p rssi ≠ none := by
  obtain ⟨b0, b1, b2, b3, b4, b5, b6, b7, b8, b9, b10, b11, b12, b13, b14, b15, b16, b17, rfl⟩ :=
    payload18 p h
  refine ⟨⟨_, rfl, rfl⟩, ⟨_, _, rfl, rfl, rfl⟩, ⟨_, _, rfl, rfl, rfl⟩, ⟨_, _, rfl, rfl, rfl⟩,
    ⟨_, _, rfl, rfl, rfl⟩, ⟨_, parseLocals_eval g _ _ _ _ _ _ _ _ _ _ _ _ _ _ _ _ _ _⟩,
    ⟨_, parseWS02Data_eval g rssi _ _ _ _ _ _ _ _ _ _ _ _ _ _ _ _ _ _⟩, ?_⟩
  rw [parseWS02Data_eval]
  exact Option.some_ne_none _

/-- The five slices of `insidePayload` exist and a struct is returned. -/
theorem parseWS02Data_total_witness :
    (∃ sd, parseWS02Data exampleGlobals insidePayload (-71) = some sd) ∧
    slice insidePayload uptimeOffset (uptimeOffset + 4) = some [0xCD, 0x5F, 0x01, 0x00] :=
  ⟨(parseWS02Data_total exampleGlobals insidePayload (-71) (by decide)).2.2.2.2.2.2.1, by decide⟩

/-- C13: for every scan event with local name `name`, first manufacturer-data element `first`
and RSSI `rssi`, `onScan` returns normally and writes a log entry if and only if the name is
exactly `ThermoBeacon`, the payload has length exactly 18 and the Name that `parseWS02Data`
resolves is not empty; the entry written is that reading, and the decoder is only ever applied
to payloads of length 18 (replacing it by any decoder that agrees with it on the payloads of
length 18 changes nothing). -/
theorem onScan_forwards_iff (g : Globals) (name : String) (first : ManufacturerDataElement)
    (rest : List ManufacturerDataElement) (rssi : Int) :
    ∃ out, onScan g { LocalName := name, ManufacturerData := first :: rest, RSSI := rssi }
        = some out ∧
      (out ≠ [] ↔ name = "ThermoBeacon" ∧ first.Data.length = 18 ∧
        ∃ sd, parseWS02Data g first.Data rssi = some sd ∧ sd.Name ≠ "") ∧
      (∀ sd, name = "ThermoBeacon" → first.Data.length = 18 →
        parseWS02Data g first.Data rssi = some sd → sd.Name ≠ "" →
        out = [logEntry sd] ∧ (logEntry sd).Name = sd.Name ∧ (logEntry sd).RSSI = rssi ∧
          (logEntry sd).Uptime = formatUptime sd.Uptime) ∧
      (∀ parse : List Byte → Int → Option SensorData,
        (∀ p r, p.length = 18 → parse p r = parseWS02Data g p r) →
        ∀ sr : ScanResult, onScanWith parse sr = onScan g sr) := by
  have hext : ∀ parse : List Byte → Int → Option SensorData,
      (∀ p r, p.length = 18 → parse p r = parseWS02Data g p r) →
      ∀ sr : ScanResult, onScanWith parse sr = onScan g sr := by
    intro parse hparse sr
    unfold onScan onScanWith processAdvertisementWith
    split_ifs with hn
    · rcases hm : sr.ManufacturerData with _ | ⟨f, r⟩
      · rfl
      · simp only
        split_ifs with hl
        · rw [hparse _ _ hl]
        · rfl
    · rfl
  by_cases hn : name = "ThermoBeacon"
  · by_cases hl : first.Data.length = 18
    · obtain ⟨sd, hsd⟩ := (parseWS02Data_total g first.Data rssi hl).2.2.2.2.2.2.1
      have hRSSI : sd.RSSI = rssi := by
        obtain ⟨sd', h1, -, -, h4, -⟩ := parseWS02Data_battery_uptime_rssi g first.Data rssi hl
        rw [hsd] at h1
        injection h1 with h1
        rw [h1]; exact h4
      by_cases hname : sd.Name = ""
      · refine ⟨[], ?_, ?_, ?_, hext⟩
        · simp [onScan, onScanWith, processAdvertisementWith, hn, hl, hsd, hname]
        · constructor
          · intro h; exact absurd rfl h
          · rintro ⟨-, -, sd', hsd', hne⟩
            rw [hsd] at hsd'
            injection hsd' with hsd'
            subst hsd'
            exact absurd hname hne
        · intro sd' _ _ hsd' hne
          rw [hsd] at hsd'
          injection hsd' with hsd'
          subst hsd'
          exact absurd hname hne
      · refine ⟨[logEntry sd], ?_, ?_, ?_, hext⟩
        · simp [onScan, onScanWith, processAdvertisementWith, hn, hl, hsd, hname]
        · constructor
          · intro _; exact ⟨hn, hl, sd, hsd, hname⟩
          · intro _; exact List.cons_ne_nil _ _
        · intro sd' _ _ hsd' _
          rw [hsd] at hsd'
          injection hsd' with hsd'
          subst hsd'
          exact ⟨rfl, rfl, hRSSI, rfl⟩
    · refine ⟨[], ?_, ?_, ?_, hext⟩
      · simp [onScan, onScanWith, processAdvertisementWith, hn, hl]
      · constructor
        · intro h; exact absurd rfl h
        · rintro ⟨-, hl', -⟩; exact absurd hl' hl
      · intro sd _ hl' _ _; exact absurd hl' hl
  · refine ⟨[], ?_, ?_, ?_, hext⟩
    · simp [onScan, onScanWith, hn]
    · constructor
      · intro h; exact absurd rfl h
      · rintro ⟨hn', -, -⟩; exact absurd hn' hn
    · intro sd hn' _ _ _; exact absurd hn' hn

/-- C18 (the code at the failing input): a scan event named `ThermoBeacon` whose
manufacturer-data list is empty makes `processAdvertisement`, and with it `onScan`, panic on
the index expression `ManufacturerData()[0]`; the claim that the access to the first element is
within bounds for every list, the empty one included, does not hold for the program. -/
theorem processAdvertisement_empty_panics (g : Globals) :
    emptyManufacturerDataEvent.LocalName = "ThermoBeacon" ∧
    emptyManufacturerDataEvent.ManufacturerData = [] ∧
    processAdvertisement g emptyManufacturerDataEvent = none ∧
    onScan g emptyManufacturerDataEvent = none ∧
    (∀ (name : String) (rssi : Int), name ≠ "ThermoBeacon" →
      onScan g { LocalName := name, ManufacturerData := [], RSSI := rssi } = some []) ∧
    (∀ (first : ManufacturerDataElement) (rest : List ManufacturerDataElement) (rssi : Int),
      first.Data.length ≠ 18 →
      processAdvertisement g
        { LocalName := "ThermoBeacon", ManufacturerData := first :: rest, RSSI := rssi }
        = some []) := by
  refine ⟨rfl, rfl, rfl, rfl, ?_, ?_⟩
  · intro name rssi hn
    simp [onScan, onScanWith, hn]
  · intro first rest rssi hl
    simp [processAdvertisement, processAdvertisementWith, hl]

/-- C14 (counterexample): the temperature field of `rawUnitsPayload` is 4016, above 4000 raw
units, and no calibration applies; the decoded value before calibration is 251, which is not
negative and is not `(4016 - 4096)/16 = -5`. -/
theorem signCorrection_rawUnits_counterexample :
    ∃ l, parseLocals exampleGlobals rawUnitsPayload = some l ∧
      l.temperatureInt = 4016 ∧ 4000 < l.temperatureInt ∧ l.tempCal = F64.fin 0 ∧
      l.temperature = F64.fin 251 ∧ ¬ ((251 : ℚ) < 0) ∧
      (251 : ℚ) ≠ (((4016 : ℚ) - 4096) / 16) := by
  have e : F64.add (F64.fin (signCorrect 4016)) (F64.fin 0) = F64.fin 251 := by
    rw [(add_signCorrect_zero 4016 (by norm_num)).1, signCorrect_of_le (by norm_num)]
    norm_num
  refine ⟨_, parseLocals_rawUnitsPayload, rfl, by decide, rfl, e, ?_, ?_⟩
  · norm_num
  · norm_num

/-- C14 (amended): for every 18-byte payload, with `r` the 16-bit temperature or humidity
field, the value decoded before calibration is negative when `r/16` is above 4000, that is
when `r > 64000`, 4096 being subtracted after the scaling by 1/16, and it is `r/16`, which is
non-negative, when `r ≤ 64000` (in particular when `r ≤ 4000`). -/
theorem parseWS02Data_sign_threshold (g : Globals) (p : List Byte) (h : p.length = 18) :
    ∃ l, parseLocals g p = some l ∧
      l.temperatureInt < 65536 ∧ l.humidityInt < 65536 ∧
      l.temperature = F64.add (F64.fin (signCorrect l.temperatureInt)) l.tempCal ∧
      l.humidity = F64.add (F64.fin (signCorrect l.humidityInt)) l.humCal ∧
      (64000 < l.temperatureInt →
        signCorrect l.temperatureInt = (l.temperatureInt : ℚ) / 16 - 4096 ∧
        signCorrect l.temperatureInt < 0) ∧
      (l.temperatureInt ≤ 64000 →
        signCorrect l.temperatureInt = (l.temperatureInt : ℚ) / 16 ∧
        0 ≤ signCorrect l.temperatureInt) ∧
      (64000 < l.humidityInt →
        signCorrect l.humidityInt = (l.humidityInt : ℚ) / 16 - 4096 ∧
        signCorrect l.humidityInt < 0) ∧
      (l.humidityInt ≤ 64000 →
        signCorrect l.humidityInt = (l.humidityInt : ℚ) / 16 ∧
        0 ≤ signCorrect l.humidityInt) := by
  obtain ⟨b0, b1, b2, b3, b4, b5, b6, b7, b8, b9, b10, b11, b12, b13, b14, b15, b16, b17, rfl⟩ :=
    payload18 p h
  have ht : b10.val + 256 * b11.val < 65536 := by
    have := b10.isLt; have := b11.isLt; omega
  have hh : b12.val + 256 * b13.val < 65536 := by
    have := b12.isLt; have := b13.isLt; omega
  exact ⟨_, parseLocals_eval g _ _ _ _ _ _ _ _ _ _ _ _ _ _ _ _ _ _, ht, hh, rfl, rfl,
    (signCorrect_facts _ ht).1, (signCorrect_facts _ ht).2.1, (signCorrect_facts _ hh).1,
    (signCorrect_facts _ hh).2.1⟩

/-- The fields 64000 and 64016 of `wirePayload` decode to a non-negative and to a negative
value. -/
theorem parseWS02Data_sign_threshold_witness :
    ∃ l, parseLocals exampleGlobals wirePayload = some l ∧
      l.temperatureInt = 64000 ∧ 0 ≤ signCorrect l.temperatureInt ∧
      l.humidityInt = 64016 ∧ signCorrect l.humidityInt < 0 := by
  obtain ⟨l, hl, -, -, -, -, -, htle, hhgt, -⟩ :=
    parseWS02Data_sign_threshold exampleGlobals wirePayload (by decide)
  have e := hl
  rw [parseLocals_wirePayload] at e
  injection e with e
  subst e
  exact ⟨_, hl, rfl, (htle (by decide)).2, rfl, (hhgt (by decide)).2⟩

/-- C16: over the whole range `r = 0..65535` of a raw field, the correction applied after the
scaling equals the integer-domain correction `(r - 65536)/16` for `r > 64000` and `r/16`
otherwise; the value before calibration is negative exactly when `r > 64000` and lies between
-95.9375 and 4000; this is the value `parseWS02Data` computes for both fields of every 18-byte
payload. -/
theorem signCorrect_integer_domain (g : Globals) (p : List Byte) (r : Nat)
    (h : p.length = 18) (hr : r < 65536) :
    signCorrect r = integerDomainCorrect r ∧
    (64000 < r → signCorrect r = ((r : ℚ) - 65536) / 16) ∧
    (r ≤ 64000 → signCorrect r = (r : ℚ) / 16) ∧
    (signCorrect r < 0 ↔ 64000 < r) ∧
    -(959375 / 10000 : ℚ) ≤ signCorrect r ∧ signCorrect r ≤ 4000 ∧
    signCorrect 64001 = -(959375 / 10000 : ℚ) ∧ signCorrect 64000 = 4000 ∧
    ∃ l, parseLocals g p = some l ∧
      l.temperatureInt < 65536 ∧ l.humidityInt < 65536 ∧
      l.temperature = F64.add (F64.fin (integerDomainCorrect l.temperatureInt)) l.tempCal ∧
      l.humidity = F64.add (F64.fin (integerDomainCorrect l.humidityInt)) l.humCal := by
  obtain ⟨h1, h2, h3, h4, h5, h6⟩ := signCorrect_facts r hr
  refine ⟨h3, ?_, fun hle => (h2 hle).1, h4, by linarith, h6, ?_, ?_, ?_⟩
  · intro hgt
    rw [(h1 hgt).1]; ring
  · rw [signCorrect_of_gt (by norm_num)]; norm_num
  · rw [signCorrect_of_le (by norm_num)]; norm_num
  · obtain ⟨b0, b1, b2, b3, b4, b5, b6, b7, b8, b9, b10, b11, b12, b13, b14, b15, b16, b17,
      rfl⟩ := payload18 p h
    have ht : b10.val + 256 * b11.val < 65536 := by
      have := b10.isLt; have := b11.isLt; omega
    have hh : b12.val + 256 * b13.val < 65536 := by
      have := b12.isLt; have := b13.isLt; omega
    refine ⟨_, parseLocals_eval g _ _ _ _ _ _ _ _ _ _ _ _ _ _ _ _ _ _, ht, hh, ?_, ?_⟩
    · simp only
      rw [(signCorrect_facts _ ht).2.2.1]
    · simp only
      rw [(signCorrect_facts _ hh).2.2.1]

/-- At `r = 64001`, the least raw value that is corrected, both forms give -95.9375. -/
theorem signCorrect_integer_domain_witness :
    signCorrect 64001 = integerDomainCorrect 64001 ∧ signCorrect 64001 < 0 ∧
    integerDomainCorrect 64001 = -(959375 / 10000 : ℚ) := by
  obtain ⟨h1, -, -, h4, -, -, h7, -⟩ :=
    signCorrect_integer_domain exampleGlobals wirePayload 64001 (by decide) (by decide)
  exact ⟨h1, h4.mpr (by decide), by rw [← h1, h7]⟩

/-- C17: for every 18-byte payload the returned `MacAddress` consists of characters among
`0`-`9`, `A`-`F` and `:` only, none of them a lower-case letter; the comparison with the
configured addresses being equality of strings, a configured address that contains any other
character, such as a lower-case letter, is never matched: with Inside configured as
`aa:bb:cc:dd:ee:ff` no payload resolves to `Inside`. -/
theorem macAddress_charset (g : Globals) (p : List Byte) (rssi : Int)
    (h : p.length = 18) :
    ∃ sd, parseWS02Data g p rssi = some sd ∧
      (∀ c ∈ sd.MacAddress.data, c ∈ macAlphabet) ∧
      (∀ c ∈ sd.MacAddress.data, c.isLower = false) ∧
      ((∃ c ∈ g.insideSensor.data, c.isLower = true) →
        sd.MacAddress ≠ g.insideSensor ∧ sd.Name ≠ "Inside") ∧
      ((∃ c ∈ g.outsideSensor.data, c.isLower = true) →
        sd.MacAddress ≠ g.outsideSensor ∧ sd.Name ≠ "Outside") ∧
      (g.insideSensor = "aa:bb:cc:dd:ee:ff" → sd.Name ≠ "Inside") ∧
      (g.outsideSensor = "aa:bb:cc:dd:ee:ff" → sd.Name ≠ "Outside") := by
  obtain ⟨b0, b1, b2, b3, b4, b5, b6, b7, b8, b9, b10, b11, b12, b13, b14, b15, b16, b17, rfl⟩ :=
    payload18 p h
  have halpha := macString_alphabet b2 b3 b4 b5 b6 b7
  have hlow : ∀ c ∈ (macString b2 b3 b4 b5 b6 b7).data, c.isLower = false :=
    fun c hc => macAlphabet_not_lower c (halpha c hc)
  have hne : ∀ a : String, (∃ c ∈ a.data, c.isLower = true) →
      macString b2 b3 b4 b5 b6 b7 ≠ a := by
    rintro a ⟨c, hc, hcl⟩ heq
    rw [← heq] at hc
    rw [hlow c hc] at hcl
    exact Bool.noConfusion hcl
  have hIO : ("Outside" : String) ≠ "Inside" := by decide
  have hEI : ("" : String) ≠ "Inside" := by decide
  have hEO : ("" : String) ≠ "Outside" := by decide
  have hin : macString b2 b3 b4 b5 b6 b7 ≠ g.insideSensor →
      (if macString b2 b3 b4 b5 b6 b7 = g.insideSensor then "Inside"
        else if macString b2 b3 b4 b5 b6 b7 = g.outsideSensor then "Outside" else "")
        ≠ "Inside" := by
    intro hn
    rw [if_neg hn]
    split_ifs
    · exact hIO
    · exact hEI
  have hout : macString b2 b3 b4 b5 b6 b7 ≠ g.outsideSensor →
      (if macString b2 b3 b4 b5 b6 b7 = g.insideSensor then "Inside"
        else if macString b2 b3 b4 b5 b6 b7 = g.outsideSensor then "Outside" else "")
        ≠ "Outside" := by
    intro hn
    rw [if_neg hn]
    split_ifs
    · exact hIO.symm
    · exact hEO
  refine ⟨_, parseWS02Data_eval g rssi _ _ _ _ _ _ _ _ _ _ _ _ _ _ _ _ _ _, halpha, hlow,
    fun hx => ⟨hne _ hx, hin (hne _ hx)⟩, fun hx => ⟨hne _ hx, hout (hne _ hx)⟩, ?_, ?_⟩
  · intro hcfg
    exact hin (hne _ (by rw [hcfg]; decide))
  · intro hcfg
    exact hout (hne _ (by rw [hcfg]; decide))

/-- The payload `insidePayload` decodes to `AA:BB:CC:DD:EE:FF` and is unknown to a store that
spells the Inside address in lower case. -/
theorem macAddress_charset_witness :
    ∃ sd, parseWS02Data lowercaseGlobals insidePayload (-71) = some sd ∧
      sd.MacAddress = "AA:BB:CC:DD:EE:FF" ∧ sd.Name ≠ "Inside" := by
  obtain ⟨sd, hsd, -, -, -, -, hin, -⟩ :=
    macAddress_charset lowercaseGlobals insidePayload (-71) (by decide)
  have e := hsd
  rw [insidePayload, parseWS02Data_eval] at e
  injection e with e
  subst e
  exact ⟨_, hsd, by decide, hin rfl⟩

/-- C19: for every 32-bit unsigned seconds value `s`, the components `d`, `h`, `m` that
`formatUptime` prints satisfy `h < 24`, `m < 60`, `d ≤ 49710` and
`86400*d + 3600*h + 60*m ≤ s < 86400*d + 3600*h + 60*m + 60`; the minutes, computed from
`s % 3600`, equal the minutes of the remainder left after the hours. -/
theorem formatUptime_components (s : Nat) (hs : s < 2 ^ 32) :
    formatUptime s = fmtDecimal (formatUptimeParts s).1 ++ "d "
      ++ fmtDecimal (formatUptimeParts s).2.1 ++ "h "
      ++ fmtDecimal (formatUptimeParts s).2.2 ++ "m" ∧
    (formatUptimeParts s).2.1 < 24 ∧ (formatUptimeParts s).2.2 < 60 ∧
    (formatUptimeParts s).1 ≤ 49710 ∧
    86400 * (formatUptimeParts s).1 + 3600 * (formatUptimeParts s).2.1
      + 60 * (formatUptimeParts s).2.2 ≤ s ∧
    s < 86400 * (formatUptimeParts s).1 + 3600 * (formatUptimeParts s).2.1
      + 60 * (formatUptimeParts s).2.2 + 60 ∧
    (formatUptimeParts s).2.2
      = (s % 86400 - 3600 * (formatUptimeParts s).2.1) / 60 := by
  have hs' : s < 4294967296 := by simpa using hs
  refine ⟨rfl, ?_, ?_, ?_, ?_, ?_, ?_⟩ <;> simp only [formatUptimeParts] <;> omega

/-- The breakdown of 90061 s is 1 d 1 h 1 m, that of the largest `uint32` is
49710 d 6 h 28 m. -/
theorem formatUptime_components_witness :
    formatUptimeParts 90061 = (1, 1, 1) ∧ formatUptimeParts 4294967295 = (49710, 6, 28) ∧
    86400 * 49710 + 3600 * 6 + 60 * 28 ≤ 4294967295 ∧
    formatUptime 4294967295 = "49710d 6h 28m" := by
  have h1 : formatUptimeParts 90061 = (1, 1, 1) := by decide
  have h2 : formatUptimeParts 4294967295 = (49710, 6, 28) := by decide
  obtain ⟨hf, -, -, -, hle, -, -⟩ := formatUptime_components 4294967295 (by decide)
  rw [h2] at hle
  exact ⟨h1, h2, hle, by decide⟩

/-- C20: two 18-byte payloads give the same `MacAddress` if and only if their bytes at offsets
2..7 are equal; hence, under one calibration store, two payloads with different address bytes
never both resolve to `Inside`, nor both to `Outside`. -/
theorem macAddress_injective (g : Globals) (p q : List Byte) (rssi rssi' : Int)
    (hp : p.length = 18) (hq : q.length = 18) :
    ∃ sp sq, parseWS02Data g p rssi = some sp ∧ parseWS02Data g q rssi' = some sq ∧
      (sp.MacAddress = sq.MacAddress ↔ (p.drop 2).take 6 = (q.drop 2).take 6) ∧
      ((p.drop 2).take 6 ≠ (q.drop 2).take 6 →
        (∀ a : String, ¬ (sp.MacAddress = a ∧ sq.MacAddress = a)) ∧
        ¬ (sp.Name = "Inside" ∧ sq.Name = "Inside") ∧
        ¬ (sp.Name = "Outside" ∧ sq.Name = "Outside")) := by
  obtain ⟨b0, b1, b2, b3, b4, b5, b6, b7, b8, b9, b10, b11, b12, b13, b14, b15, b16, b17, rfl⟩ :=
    payload18 p hp
  obtain ⟨c0, c1, c2, c3, c4, c5, c6, c7, c8, c9, c10, c11, c12, c13, c14, c15, c16, c17, rfl⟩ :=
    payload18 q hq
  have hiff : macString b2 b3 b4 b5 b6 b7 = macString c2 c3 c4 c5 c6 c7 ↔
      [b2, b3, b4, b5, b6, b7] = [c2, c3, c4, c5, c6, c7] := by
    constructor
    · intro hm
      obtain ⟨rfl, rfl, rfl, rfl, rfl, rfl⟩ := macString_injective hm
      rfl
    · intro hl
      simp only [List.cons.injEq, and_true] at hl
      obtain ⟨rfl, rfl, rfl, rfl, rfl, rfl⟩ := hl
      rfl
  have hIO : ("Outside" : String) ≠ "Inside" := by decide
  have hEI : ("" : String) ≠ "Inside" := by decide
  have hEO : ("" : String) ≠ "Outside" := by decide
  have hin : ∀ m : String,
      (if m = g.insideSensor then "Inside"
        else if m = g.outsideSensor then "Outside" else "") = "Inside" →
      m = g.insideSensor := by
    intro m
    split_ifs with h1 h2
    · exact fun _ => h1
    · exact fun hx => absurd hx hIO
    · exact fun hx => absurd hx hEI
  have hout : ∀ m : String,
      (if m = g.insideSensor then "Inside"
        else if m = g.outsideSensor then "Outside" else "") = "Outside" →
      m = g.outsideSensor := by
    intro m
    split_ifs with h1 h2
    · exact fun hx => absurd hx hIO.symm
    · exact fun _ => h2
    · exact fun hx => absurd hx hEO
  refine ⟨_, _, parseWS02Data_eval g rssi _ _ _ _ _ _ _ _ _ _ _ _ _ _ _ _ _ _,
    parseWS02Data_eval g rssi' _ _ _ _ _ _ _ _ _ _ _ _ _ _ _ _ _ _, hiff, ?_⟩
  intro hne
  have hmne : macString b2 b3 b4 b5 b6 b7 ≠ macString c2 c3 c4 c5 c6 c7 :=
    fun hm => hne (hiff.mp hm)
  refine ⟨?_, ?_, ?_⟩
  · rintro a ⟨h1, h2⟩
    exact hmne (h1.trans h2.symm)
  · rintro ⟨h1, h2⟩
    exact hmne ((hin _ h1).trans (hin _ h2).symm)
  · rintro ⟨h1, h2⟩
    exact hmne ((hout _ h1).trans (hout _ h2).symm)

/-- The payloads `insidePayload` and `outsidePayload` have different address bytes and
different addresses. -/
theorem macAddress_injective_witness :
    ∃ sp sq, parseWS02Data exampleGlobals insidePayload (-71) = some sp ∧
      parseWS02Data exampleGlobals outsidePayload (-60) = some sq ∧
      sp.MacAddress ≠ sq.MacAddress := by
  obtain ⟨sp, sq, h1, h2, hiff, -⟩ := macAddress_injective exampleGlobals
    insidePayload outsidePayload (-71) (-60) (by decide) (by decide)
  exact ⟨sp, sq, h1, h2, fun he => absurd (hiff.mp he) (by decide)⟩

/-- C15 (counterexample): the Inside address of `seventeenCharsConfig` is exactly 17 characters
long, and so is the Outside address, yet `readConfig` ends fatally, because `len` counts the
18 bytes of the address; and the Inside address of `seventeenBytesConfig` is 16 characters
long, yet `readConfig` succeeds. -/
theorem readConfig_characters_counterexample :
    seventeenCharsConfig.insideMac.length = 17 ∧ seventeenCharsConfig.outsideMac.length = 17 ∧
    goLen seventeenCharsConfig.insideMac = 18 ∧
    readConfig (some seventeenCharsConfig)
      = LoadResult.fatal "Invalid MAC address! Must be 17 characters long." ∧
    seventeenBytesConfig.insideMac.length = 16 ∧
    readConfig (some seventeenBytesConfig) = LoadResult.loaded (globalsOf seventeenBytesConfig) := by
  refine ⟨by decide, by decide, by decide, by decide, by decide, by decide⟩

/-- C15 (amended): once the configuration has been read, `readConfig` ends fatally if and only
if the Inside address or the Outside address is not exactly 17 bytes long (for an address of
ASCII characters: not exactly 17 characters long); when both are 17 bytes long the six
package-level variables are the configured addresses and offsets and the function returns,
whatever the addresses look like. -/
theorem readConfig_fatal_iff (v : ViperValues) :
    ((∃ message, readConfig (some v) = LoadResult.fatal message) ↔
      goLen v.insideMac ≠ 17 ∨ goLen v.outsideMac ≠ 17) ∧
    (readConfig (some v) = LoadResult.loaded (globalsOf v) ↔
      goLen v.insideMac = 17 ∧ goLen v.outsideMac = 17) ∧
    (∀ g, readConfig (some v) = LoadResult.loaded g →
      g.insideSensor = v.insideMac ∧ g.insideTempCal = v.insideTemperatureCalibration ∧
      g.insideHumCal = v.insideHumidityCalibration ∧ g.outsideSensor = v.outsideMac ∧
      g.outsideTempCal = v.outsideTemperatureCalibration ∧
      g.outsideHumCal = v.outsideHumidityCalibration) ∧
    ((∀ c ∈ v.insideMac.data, c.val ≤ 127) → (∀ c ∈ v.outsideMac.data, c.val ≤ 127) →
      ((∃ message, readConfig (some v) = LoadResult.fatal message) ↔
        v.insideMac.length ≠ 17 ∨ v.outsideMac.length ≠ 17)) ∧
    readConfig (some malformedAddressConfig)
      = LoadResult.loaded (globalsOf malformedAddressConfig) := by
  have hfatal : (∃ message, readConfig (some v) = LoadResult.fatal message) ↔
      goLen v.insideMac ≠ 17 ∨ goLen v.outsideMac ≠ 17 := by
    by_cases hc : goLen v.insideMac ≠ 17 ∨ goLen v.outsideMac ≠ 17
    · simp only [readConfig, if_pos hc, hc, iff_true]
      exact ⟨_, rfl⟩
    · simp only [readConfig, if_neg hc, hc, iff_false]
      rintro ⟨m, hm⟩
      exact LoadResult.noConfusion hm
  have hloaded : readConfig (some v) = LoadResult.loaded (globalsOf v) ↔
      goLen v.insideMac = 17 ∧ goLen v.outsideMac = 17 := by
    by_cases hc : goLen v.insideMac ≠ 17 ∨ goLen v.outsideMac ≠ 17
    · simp only [readConfig, if_pos hc]
      constructor
      · intro hm; exact LoadResult.noConfusion hm
      · rintro ⟨h1, h2⟩
        rcases hc with hc | hc
        · exact absurd h1 hc
        · exact absurd h2 hc
    · simp only [readConfig, if_neg hc, globalsOf, true_iff]
      push_neg at hc
      exact hc
  refine ⟨hfatal, hloaded, ?_, ?_, rfl⟩
  · intro g hg
    by_cases hc : goLen v.insideMac ≠ 17 ∨ goLen v.outsideMac ≠ 17
    · simp only [readConfig, if_pos hc] at hg
      exact LoadResult.noConfusion hg
    · simp only [readConfig, if_neg hc] at hg
      injection hg with hg
      subst hg
      exact ⟨rfl, rfl, rfl, rfl, rfl, rfl⟩
  · intro hi ho
    rw [hfatal, goLen_ascii _ hi, goLen_ascii _ ho]

end Brifit
